import Mathlib

/-!
Verification of `ci/aggregate_data.py`: the metrics-merging engine that
combines several k6-style test-run documents into one merged report.

Modelling conventions (shallow embedding):
- JSON numbers are modelled as `Rat` (the script only adds, compares and
  divides numbers; Python's float division is modelled exactly).
- Python dicts are modelled as insertion-ordered association lists
  `List (String × _)`; `d.get(k, default)` is `(alookup k d).getD default`,
  `d[k] = v` is `dictSet d k v` (overwrite in place, else append), matching
  CPython dict semantics.
- A key that may be absent from a document dict is an `Option` field.
-/

namespace AggregateData

/-- First value bound to key `k` in an association list (Python `d[k]` / `k in d`). -/
def alookup {β : Type} (k : String) : List (String × β) → Option β
  | [] => none
  | p :: rest => if p.1 = k then some p.2 else alookup k rest

/-- Python dict assignment `d[k] = v`: overwrite in place if the key exists,
otherwise append at the end (insertion order preserved). -/
def dictSet {β : Type} (d : List (String × β)) (k : String) (v : β) : List (String × β) :=
  if (alookup k d).isSome then d.map (fun p => if p.1 = k then (k, v) else p)
  else d ++ [(k, v)]

/-- One metric entry as it appears in a document: the `type`, `contains` and
`values` keys may each be absent (the script reads them with `.get`). -/
structure MetricEntry where
  type : Option String
  contains : Option String
  values : Option (List (String × Rat))
deriving DecidableEq, Repr

/-- One input document. Each of the four top-level sections may be absent;
the script reads every one of them with `.get(..., {})`. `root_group` and
`options` are opaque payloads (modelled as association lists of numbers,
their content is only ever copied). -/
structure Document where
  root_group : Option (List (String × Rat))
  options : Option (List (String × Rat))
  state : Option (List (String × Rat))
  metrics : Option (List (String × MetricEntry))
deriving DecidableEq, Repr

/-- The aggregator dictionary built by `create_metric_aggregator`. -/
structure Agg where
  type : String
  contains : String
  count_sum : Rat
  has_count : Bool
  passes_sum : Rat
  has_passes : Bool
  fails_sum : Rat
  has_fails : Bool
  min_val : Option Rat
  has_min : Bool
  max_val : Option Rat
  has_max : Bool
  avg_sum : Rat
  avg_count : Nat
  med_sum : Rat
  med_count : Nat
  p90_sum : Rat
  p90_count : Nat
  p95_sum : Rat
  p95_count : Nat
  value_sum : Rat
  value_count : Nat
  gauge_sum_min : Rat
  gauge_sum_max : Rat
  gauge_sum_value : Rat
  has_rate : Bool
deriving DecidableEq, Repr

/-- `create_metric_aggregator(m_type, m_contains)`. -/
def create_metric_aggregator (m_type m_contains : String) : Agg :=
  { type := m_type
    contains := m_contains
    count_sum := 0
    has_count := false
    passes_sum := 0
    has_passes := false
    fails_sum := 0
    has_fails := false
    min_val := none
    has_min := false
    max_val := none
    has_max := false
    avg_sum := 0
    avg_count := 0
    med_sum := 0
    med_count := 0
    p90_sum := 0
    p90_count := 0
    p95_sum := 0
    p95_count := 0
    value_sum := 0
    value_count := 0
    gauge_sum_min := 0
    gauge_sum_max := 0
    gauge_sum_value := 0
    has_rate := m_type = "counter" }

/-- Python `if agg["min_val"] is None or v < agg["min_val"]: agg["min_val"] = v`. -/
def minStep (cur : Option Rat) (v : Rat) : Option Rat :=
  match cur with
  | none => some v
  | some m => if v < m then some v else some m

/-- Python `if agg["max_val"] is None or v > agg["max_val"]: agg["max_val"] = v`. -/
def maxStep (cur : Option Rat) (v : Rat) : Option Rat :=
  match cur with
  | none => some v
  | some m => if v > m then some v else some m

/-- Body of the `for k, v in values_dict.items()` loop of
`update_metric_aggregator` (the non-gauge branch): one recognized key updates
its accumulator slot, `rate` and unrecognized keys are dropped. -/
def update_one_field (agg : Agg) (p : String × Rat) : Agg :=
  let k := p.1
  let v := p.2
  if k = "count" then { agg with count_sum := agg.count_sum + v, has_count := true }
  else if k = "passes" then { agg with passes_sum := agg.passes_sum + v, has_passes := true }
  else if k = "fails" then { agg with fails_sum := agg.fails_sum + v, has_fails := true }
  else if k = "min" then { agg with min_val := minStep agg.min_val v, has_min := true }
  else if k = "max" then { agg with max_val := maxStep agg.max_val v, has_max := true }
  else if k = "avg" then { agg with avg_sum := agg.avg_sum + v, avg_count := agg.avg_count + 1 }
  else if k = "med" then { agg with med_sum := agg.med_sum + v, med_count := agg.med_count + 1 }
  else if k = "p(90)" then { agg with p90_sum := agg.p90_sum + v, p90_count := agg.p90_count + 1 }
  else if k = "p(95)" then { agg with p95_sum := agg.p95_sum + v, p95_count := agg.p95_count + 1 }
  else if k = "value" then { agg with value_sum := agg.value_sum + v, value_count := agg.value_count + 1 }
  else if k = "rate" then agg
  else agg

/-- `update_metric_aggregator(agg, values_dict)`: the gauge branch sums
`min`/`max`/`value` with default 0 and returns; every other type iterates the
items of `values_dict`. -/
def update_metric_aggregator (agg : Agg) (values_dict : List (String × Rat)) : Agg :=
  if agg.type = "gauge" then
    { agg with
      gauge_sum_min := agg.gauge_sum_min + (alookup "min" values_dict).getD 0
      gauge_sum_max := agg.gauge_sum_max + (alookup "max" values_dict).getD 0
      gauge_sum_value := agg.gauge_sum_value + (alookup "value" values_dict).getD 0 }
  else
    values_dict.foldl update_one_field agg

/-- The final `.metrics[<name>]` entry produced by `finalize_metric_aggregator`. -/
structure OutMetric where
  type : String
  contains : String
  values : List (String × Rat)
deriving DecidableEq, Repr

/-- `finalize_metric_aggregator(agg, total_time_s)`. The `final_values` dict
is built by successive dict assignments. In the rate branch Python reads
`final_values["count"]` (guaranteed present there because `has_count` holds);
the `getD 0` below is only a totalisation of that read. -/
def finalize_metric_aggregator (agg : Agg) (total_time_s : Rat) : OutMetric :=
  let fv : List (String × Rat) := []
  let fv := if agg.type = "gauge" then
      dictSet (dictSet (dictSet fv "min" agg.gauge_sum_min) "max" agg.gauge_sum_max)
        "value" agg.gauge_sum_value
    else fv
  let fv := if agg.has_count then dictSet fv "count" agg.count_sum else fv
  let fv := if agg.has_passes then dictSet fv "passes" agg.passes_sum else fv
  let fv := if agg.has_fails then dictSet fv "fails" agg.fails_sum else fv
  let fv := if agg.has_min then dictSet fv "min" (agg.min_val.getD 0) else fv
  let fv := if agg.has_max then dictSet fv "max" (agg.max_val.getD 0) else fv
  let fv := if agg.avg_count > 0 then dictSet fv "avg" (agg.avg_sum / agg.avg_count) else fv
  let fv := if agg.med_count > 0 then dictSet fv "med" (agg.med_sum / agg.med_count) else fv
  let fv := if agg.p90_count > 0 then dictSet fv "p(90)" (agg.p90_sum / agg.p90_count) else fv
  let fv := if agg.p95_count > 0 then dictSet fv "p(95)" (agg.p95_sum / agg.p95_count) else fv
  let fv := if agg.value_count > 0 then dictSet fv "value" (agg.value_sum / agg.value_count) else fv
  let fv := if agg.has_rate ∧ agg.has_count ∧ total_time_s > 0 then
      dictSet fv "rate" ((alookup "count" fv).getD 0 / total_time_s)
    else fv
  { type := agg.type, contains := agg.contains, values := fv }

/-- Step 1 of `combine_all_docs`: the maximum `.state.testRunDurationMs`
across the documents (0 when absent), found with a running-maximum loop. -/
def max_duration_ms (docs : List Document) : Rat :=
  docs.foldl
    (fun acc doc =>
      let dur := (alookup "testRunDurationMs" (doc.state.getD [])).getD 0
      if dur > acc then dur else acc)
    0

/-- `total_time_s = max_duration_ms / 1000.0`. -/
def total_time_s (docs : List Document) : Rat :=
  max_duration_ms docs / 1000

/-- Inner body of the aggregator-building loop of `combine_all_docs`: for one
`(m_name, m_data)` item, create the aggregator on first sight of the name
(from this item's `type`/`contains`), then update it with this item's
`values`. -/
def ingest_metric_item (reg : List (String × Agg)) (item : String × MetricEntry) :
    List (String × Agg) :=
  let m_name := item.1
  let m_type := item.2.type.getD ""
  let m_contains := item.2.contains.getD ""
  let values_dict := item.2.values.getD []
  let reg1 := if (alookup m_name reg).isSome then reg
    else reg ++ [(m_name, create_metric_aggregator m_type m_contains)]
  reg1.map (fun q => if q.1 = m_name then (q.1, update_metric_aggregator q.2 values_dict) else q)

/-- One document's worth of the aggregator-building loop. -/
def ingest_doc (reg : List (String × Agg)) (doc : Document) : List (String × Agg) :=
  (doc.metrics.getD []).foldl ingest_metric_item reg

/-- Step 2 of `combine_all_docs`: the `metric_aggregators` registry after all
documents have been ingested. -/
def metric_aggregators (docs : List Document) : List (String × Agg) :=
  docs.foldl ingest_doc []

/-- Step 3 of `combine_all_docs`: finalize every aggregator in first-seen order. -/
def merged_metrics (docs : List Document) : List (String × OutMetric) :=
  (metric_aggregators docs).map
    (fun p => (p.1, finalize_metric_aggregator p.2 (total_time_s docs)))

/-- The merged output document. All four keys are present whenever the batch
is non-empty; `combine_all_docs [] = {}` has all four absent. -/
structure MergedDoc where
  root_group : Option (List (String × Rat))
  options : Option (List (String × Rat))
  state : Option (List (String × Rat))
  metrics : Option (List (String × OutMetric))
deriving DecidableEq, Repr

/-- `combine_all_docs(docs)`. -/
def combine_all_docs (docs : List Document) : MergedDoc :=
  match docs with
  | [] => { root_group := none, options := none, state := none, metrics := none }
  | first :: _ =>
    { root_group := some (first.root_group.getD [])
      options := some (first.options.getD [])
      state := some (dictSet (first.state.getD []) "testRunDurationMs" (max_duration_ms docs))
      metrics := some (merged_metrics docs) }

/-! ### Specification-side helper functions

These are observation functions used to state properties of the code above;
they are not part of the translated source. -/

/-- Sum of all values bound to key `k` in one `values` dict. -/
def sumKey (k : String) : List (String × Rat) → Rat
  | [] => 0
  | p :: rest => (if p.1 = k then p.2 else 0) + sumKey k rest

/-- Whether key `k` occurs in one `values` dict. -/
def containsKey {β : Type} (k : String) : List (String × β) → Bool
  | [] => false
  | p :: rest => if p.1 = k then true else containsKey k rest

/-- How many entries of one `values` dict carry key `k` (0 or 1 for a real dict). -/
def countKey {β : Type} (k : String) : List (String × β) → Nat
  | [] => 0
  | p :: rest => (if p.1 = k then 1 else 0) + countKey k rest

/-- The values bound to key `k` in one `values` dict, in order. -/
def keyVals (k : String) : List (String × Rat) → List Rat
  | [] => []
  | p :: rest => if p.1 = k then p.2 :: keyVals k rest else keyVals k rest

/-- Running minimum over a list of reported values, starting from `cur`. -/
def minFold (cur : Option Rat) (vs : List Rat) : Option Rat :=
  vs.foldl minStep cur

/-- Running maximum over a list of reported values, starting from `cur`. -/
def maxFold (cur : Option Rat) (vs : List Rat) : Option Rat :=
  vs.foldl maxStep cur

/-- Fold a whole batch of `values` dicts into one aggregator
(one `update_metric_aggregator` call per dict, in order). -/
def updateMany (agg : Agg) (batch : List (List (String × Rat))) : Agg :=
  batch.foldl update_metric_aggregator agg

/-- Sum over a batch of `values` dicts of the value at key `k`, defaulting 0
when absent (the gauge accumulation rule). -/
def gaugeSum (k : String) : List (List (String × Rat)) → Rat
  | [] => 0
  | vs :: rest => (alookup k vs).getD 0 + gaugeSum k rest

/-- Sum of `sumKey k` over a batch of `values` dicts. -/
def sumKeyMany (k : String) : List (List (String × Rat)) → Rat
  | [] => 0
  | vs :: rest => sumKey k vs + sumKeyMany k rest

/-- Whether any dict of the batch carries key `k`. -/
def containsKeyMany (k : String) : List (List (String × Rat)) → Bool
  | [] => false
  | vs :: rest => if containsKey k vs then true else containsKeyMany k rest

/-- Sum of `countKey k` over a batch of `values` dicts. -/
def countKeyMany (k : String) : List (List (String × Rat)) → Nat
  | [] => 0
  | vs :: rest => countKey k vs + countKeyMany k rest

/-- All values reported at key `k` across a batch of `values` dicts, in order. -/
def keyValsMany (k : String) : List (List (String × Rat)) → List Rat
  | [] => []
  | vs :: rest => keyVals k vs ++ keyValsMany k rest

/-- All `(metric name, metric entry)` items of the batch, in processing order
(documents in order, each document's `metrics` items in order). -/
def metricItems (docs : List Document) : List (String × MetricEntry) :=
  docs.foldr (fun d acc => d.metrics.getD [] ++ acc) []

/-- The `type`/`contains` pair of the first item of an item list that carries
name `n`, read with the same `.get(..., "")` defaults the code uses. -/
def firstTCItems (n : String) (items : List (String × MetricEntry)) : Option (String × String) :=
  (alookup n items).map (fun e => (e.type.getD "", e.contains.getD ""))

/-- The `type`/`contains` pair of the first item that introduces metric name
`n` across the batch; `none` when no document mentions `n`. -/
def firstTC (n : String) (docs : List Document) : Option (String × String) :=
  firstTCItems n (metricItems docs)

/-- The `values` dicts that the items carrying name `n` contribute, in order
(absent `values` read as `{}`). -/
def contribsItems (n : String) (items : List (String × MetricEntry)) :
    List (List (String × Rat)) :=
  items.foldr (fun p acc => if p.1 = n then p.2.values.getD [] :: acc else acc) []

/-- The `values` dicts contributed to metric name `n`, one per item carrying
that name, in processing order. -/
def contribs (n : String) (docs : List Document) : List (List (String × Rat)) :=
  contribsItems n (metricItems docs)

/-- The `values` keys the engine recognizes. -/
def recognizedKeys : List String :=
  ["count", "passes", "fails", "min", "max", "avg", "med", "p(90)", "p(95)", "value", "rate"]

/-- Drop every `rate` entry from a metric entry's `values`. -/
def stripRateEntry (e : MetricEntry) : MetricEntry :=
  { e with values := e.values.map (fun vs => vs.filter (fun p => p.1 ≠ "rate")) }

/-- Drop every `rate` entry from every metric's `values` in a document. -/
def stripRateDoc (d : Document) : Document :=
  { d with metrics := d.metrics.map (List.map (fun p => (p.1, stripRateEntry p.2))) }

/-- Keep only recognized keys in a metric entry's `values`. -/
def stripUnrecognizedEntry (e : MetricEntry) : MetricEntry :=
  { e with values := e.values.map (fun vs => vs.filter (fun p => p.1 ∈ recognizedKeys)) }

/-- Keep only recognized keys in every metric's `values` in a document. -/
def stripUnrecognizedDoc (d : Document) : Document :=
  { d with metrics := d.metrics.map (List.map (fun p => (p.1, stripUnrecognizedEntry p.2))) }

/-- Replace every absent (defaulted) field of a metric entry by its explicit
default: `type`/`contains` by `""`, `values` by `{}`. -/
def fillEntry (e : MetricEntry) : MetricEntry :=
  { type := some (e.type.getD "")
    contains := some (e.contains.getD "")
    values := some (e.values.getD []) }

/-- Replace every absent (defaulted) section of a document by its explicit
default (`{}`), recursively in metric entries. -/
def fillDoc (d : Document) : Document :=
  { root_group := some (d.root_group.getD [])
    options := some (d.options.getD [])
    state := some (d.state.getD [])
    metrics := some ((d.metrics.getD []).map (fun p => (p.1, fillEntry p.2))) }

/-! ### Concrete documents used in the claim theorems and witnesses -/

/-- `doc1` of the spec's worked scenario. -/
def scenario_doc1 : Document :=
  { root_group := none
    options := none
    state := some [("testRunDurationMs", 1000)]
    metrics := some
      [("req_dur", { type := some "trend"
                     contains := some "time"
                     values := some [("avg", 10), ("min", 5), ("max", 20), ("p(95)", 18)] }),
       ("reqs", { type := some "counter"
                  contains := some "default"
                  values := some [("count", 100)] })] }

/-- `doc2` of the spec's worked scenario. -/
def scenario_doc2 : Document :=
  { root_group := none
    options := none
    state := some [("testRunDurationMs", 2000)]
    metrics := some
      [("req_dur", { type := some "trend"
                     contains := some "time"
                     values := some [("avg", 30), ("min", 2), ("max", 25), ("p(95)", 22)] }),
       ("reqs", { type := some "counter"
                  contains := some "default"
                  values := some [("count", 50)] })] }

/-- A gauge metric reporting only `min`: merging `[this]` does not reproduce
its values (the output also carries `max` and `value`). -/
def gaugePartialDoc : Document :=
  { root_group := none
    options := none
    state := some [("testRunDurationMs", 1000)]
    metrics := some
      [("g", { type := some "gauge", contains := some "data", values := some [("min", 5)] })] }

/-- A counter carrying a stray `rate` entry in its input values. -/
def strayRateDoc : Document :=
  { root_group := none
    options := none
    state := some [("testRunDurationMs", 1000)]
    metrics := some
      [("m", { type := some "counter"
               contains := some "default"
               values := some [("count", 100), ("rate", 999)] })] }

/-- A well-formed single document for the single-document identity. -/
def c2doc : Document :=
  { root_group := none
    options := none
    state := some [("testRunDurationMs", 1000)]
    metrics := some
      [("m", { type := some "counter"
               contains := some "default"
               values := some [("count", 100), ("avg", 7)] })] }

/-- Gauge document A of the spec's gauge example. -/
def gaugeDocA : Document :=
  { root_group := none
    options := none
    state := none
    metrics := some
      [("g", { type := some "gauge"
               contains := some "data"
               values := some [("min", 5), ("max", 20), ("value", 7)] })] }

/-- Gauge document B of the spec's gauge example. -/
def gaugeDocB : Document :=
  { root_group := none
    options := none
    state := none
    metrics := some
      [("g", { type := some "gauge"
               contains := some "data"
               values := some [("min", 2), ("max", 25), ("value", 3)] })] }

/-- A document reporting a negative run duration. -/
def negDurationDoc : Document :=
  { root_group := none
    options := none
    state := some [("testRunDurationMs", -1000)]
    metrics := none }

/-- First document of the type-conflict pair: metric `m` declared `gauge`. -/
def conflictDocA : Document :=
  { root_group := none
    options := none
    state := none
    metrics := some
      [("m", { type := some "gauge", contains := some "g1", values := some [("value", 7)] })] }

/-- Second document of the type-conflict pair: the same metric `m` declared
`counter` — its declaration is never consulted. -/
def conflictDocB : Document :=
  { root_group := none
    options := none
    state := none
    metrics := some
      [("m", { type := some "counter"
               contains := some "c2"
               values := some [("count", 5), ("value", 3)] })] }

/-- A document with payloads in every section, for the frame property. -/
def c8doc : Document :=
  { root_group := some [("r", 1)]
    options := some [("o", 2)]
    state := some [("testRunDurationMs", 500), ("other", 9)]
    metrics := some [] }

/-- A document whose state has no duration key at all. -/
def noDurDoc : Document :=
  { root_group := none
    options := none
    state := some [("x", 3)]
    metrics := none }

/-! ### Association-list lemmas -/

@[simp] theorem alookup_nil {β : Type} (k : String) : alookup k ([] : List (String × β)) = none := rfl

@[simp] theorem alookup_cons {β : Type} (k : String) (p : String × β) (rest : List (String × β)) :
    alookup k (p :: rest) = if p.1 = k then some p.2 else alookup k rest := rfl

@[simp] theorem alookup_append {β : Type} (k : String) (d e : List (String × β)) :
    alookup k (d ++ e) =
      match alookup k d with
      | some v => some v
      | none => alookup k e := by
  induction d with
  | nil => simp
  | cons p rest ih =>
    by_cases hp : p.1 = k
    · simp [hp]
    · simp [hp, ih]

@[simp] theorem alookup_chunk {β : Type} (k kc : String) (c : Prop) [Decidable c] (v : β)
    (h : ¬kc = k) : alookup k (if c then [(kc, v)] else []) = none := by
  split <;> simp [h]

@[simp] theorem dictSet_nil {β : Type} (k : String) (v : β) : dictSet [] k v = [(k, v)] := by
  simp [dictSet]

theorem dictSet_fresh {β : Type} (d : List (String × β)) (k : String) (v : β)
    (h : alookup k d = none) : dictSet d k v = d ++ [(k, v)] := by
  simp [dictSet, h]

theorem chain_step {β : Type} (d : List (String × β)) (c : Prop) [Decidable c] (k : String) (v : β)
    (h : alookup k d = none) :
    (if c then dictSet d k v else d) = d ++ (if c then [(k, v)] else []) := by
  split
  · exact dictSet_fresh d k v h
  · simp

/-! ### `update_metric_aggregator`: one rewrite per recognized key -/

theorem update_one_field_count (a : Agg) (v : Rat) :
    update_one_field a ("count", v) = { a with count_sum := a.count_sum + v, has_count := true } := by
  simp [update_one_field]

theorem update_one_field_passes (a : Agg) (v : Rat) :
    update_one_field a ("passes", v) = { a with passes_sum := a.passes_sum + v, has_passes := true } := by
  simp [update_one_field]

theorem update_one_field_fails (a : Agg) (v : Rat) :
    update_one_field a ("fails", v) = { a with fails_sum := a.fails_sum + v, has_fails := true } := by
  simp [update_one_field]

theorem update_one_field_min (a : Agg) (v : Rat) :
    update_one_field a ("min", v) = { a with min_val := minStep a.min_val v, has_min := true } := by
  simp [update_one_field]

theorem update_one_field_max (a : Agg) (v : Rat) :
    update_one_field a ("max", v) = { a with max_val := maxStep a.max_val v, has_max := true } := by
  simp [update_one_field]

theorem update_one_field_avg (a : Agg) (v : Rat) :
    update_one_field a ("avg", v) = { a with avg_sum := a.avg_sum + v, avg_count := a.avg_count + 1 } := by
  simp [update_one_field]

theorem update_one_field_med (a : Agg) (v : Rat) :
    update_one_field a ("med", v) = { a with med_sum := a.med_sum + v, med_count := a.med_count + 1 } := by
  simp [update_one_field]

theorem update_one_field_p90 (a : Agg) (v : Rat) :
    update_one_field a ("p(90)", v) = { a with p90_sum := a.p90_sum + v, p90_count := a.p90_count + 1 } := by
  simp [update_one_field]

theorem update_one_field_p95 (a : Agg) (v : Rat) :
    update_one_field a ("p(95)", v) = { a with p95_sum := a.p95_sum + v, p95_count := a.p95_count + 1 } := by
  simp [update_one_field]

theorem update_one_field_value (a : Agg) (v : Rat) :
    update_one_field a ("value", v) = { a with value_sum := a.value_sum + v, value_count := a.value_count + 1 } := by
  simp [update_one_field]

theorem update_one_field_rate (a : Agg) (v : Rat) :
    update_one_field a ("rate", v) = a := by
  simp [update_one_field]

theorem update_one_field_other (a : Agg) (k : String) (v : Rat) (h : k ∉ recognizedKeys) :
    update_one_field a (k, v) = a := by
  simp only [recognizedKeys, List.mem_cons, List.mem_singleton, not_or] at h
  obtain ⟨h1, h2, h3, h4, h5, h6, h7, h8, h9, h10, h11⟩ := h
  simp [update_one_field, h1, h2, h3, h4, h5, h6, h7, h8, h9, h10, h11]

/-! ### The accumulation loops in closed form -/

@[simp] theorem minFold_nil (cur : Option Rat) : minFold cur [] = cur := rfl

@[simp] theorem minFold_cons (cur : Option Rat) (v : Rat) (vs : List Rat) :
    minFold cur (v :: vs) = minFold (minStep cur v) vs := rfl

@[simp] theorem maxFold_nil (cur : Option Rat) : maxFold cur [] = cur := rfl

@[simp] theorem maxFold_cons (cur : Option Rat) (v : Rat) (vs : List Rat) :
    maxFold cur (v :: vs) = maxFold (maxStep cur v) vs := rfl

/-- Full characterisation of the non-gauge update loop: folding one `values`
dict into an aggregator adds the per-key sums, counts and presence flags and
merges the running min/max; `type`, `contains`, the gauge sums and `has_rate`
are untouched. -/
theorem foldl_update_one_field_spec (vals : List (String × Rat)) (a : Agg) :
    vals.foldl update_one_field a =
      { a with
        count_sum := a.count_sum + sumKey "count" vals
        has_count := a.has_count || containsKey "count" vals
        passes_sum := a.passes_sum + sumKey "passes" vals
        has_passes := a.has_passes || containsKey "passes" vals
        fails_sum := a.fails_sum + sumKey "fails" vals
        has_fails := a.has_fails || containsKey "fails" vals
        min_val := minFold a.min_val (keyVals "min" vals)
        has_min := a.has_min || containsKey "min" vals
        max_val := maxFold a.max_val (keyVals "max" vals)
        has_max := a.has_max || containsKey "max" vals
        avg_sum := a.avg_sum + sumKey "avg" vals
        avg_count := a.avg_count + countKey "avg" vals
        med_sum := a.med_sum + sumKey "med" vals
        med_count := a.med_count + countKey "med" vals
        p90_sum := a.p90_sum + sumKey "p(90)" vals
        p90_count := a.p90_count + countKey "p(90)" vals
        p95_sum := a.p95_sum + sumKey "p(95)" vals
        p95_count := a.p95_count + countKey "p(95)" vals
        value_sum := a.value_sum + sumKey "value" vals
        value_count := a.value_count + countKey "value" vals } := by
  induction vals generalizing a with
  | nil => simp [sumKey, containsKey, countKey, keyVals]
  | cons p rest ih =>
    rcases p with ⟨k, v⟩
    rw [List.foldl_cons, ih]
    by_cases h1 : k = "count"
    · subst h1
      rw [update_one_field_count]
      simp [sumKey, containsKey, countKey, keyVals, add_assoc]
    by_cases h2 : k = "passes"
    · subst h2
      rw [update_one_field_passes]
      simp [sumKey, containsKey, countKey, keyVals, add_assoc]
    by_cases h3 : k = "fails"
    · subst h3
      rw [update_one_field_fails]
      simp [sumKey, containsKey, countKey, keyVals, add_assoc]
    by_cases h4 : k = "min"
    · subst h4
      rw [update_one_field_min]
      simp [sumKey, containsKey, countKey, keyVals, add_assoc]
    by_cases h5 : k = "max"
    · subst h5
      rw [update_one_field_max]
      simp [sumKey, containsKey, countKey, keyVals, add_assoc]
    by_cases h6 : k = "avg"
    · subst h6
      rw [update_one_field_avg]
      simp [sumKey, containsKey, countKey, keyVals, add_assoc]
    by_cases h7 : k = "med"
    · subst h7
      rw [update_one_field_med]
      simp [sumKey, containsKey, countKey, keyVals, add_assoc]
    by_cases h8 : k = "p(90)"
    · subst h8
      rw [update_one_field_p90]
      simp [sumKey, containsKey, countKey, keyVals, add_assoc]
    by_cases h9 : k = "p(95)"
    · subst h9
      rw [update_one_field_p95]
      simp [sumKey, containsKey, countKey, keyVals, add_assoc]
    by_cases h10 : k = "value"
    · subst h10
      rw [update_one_field_value]
      simp [sumKey, containsKey, countKey, keyVals, add_assoc]
    by_cases h11 : k = "rate"
    · subst h11
      rw [update_one_field_rate]
      simp [sumKey, containsKey, countKey, keyVals, add_assoc]
    rw [update_one_field_other a k v
      (by simp [recognizedKeys, h1, h2, h3, h4, h5, h6, h7, h8, h9, h10, h11])]
    simp [sumKey, containsKey, countKey, keyVals, h1, h2, h3, h4, h5, h6, h7, h8, h9, h10, h11]

/-- Non-gauge `update_metric_aggregator` in closed form. -/
theorem update_spec_nongauge (a : Agg) (vals : List (String × Rat)) (h : ¬a.type = "gauge") :
    update_metric_aggregator a vals =
      { a with
        count_sum := a.count_sum + sumKey "count" vals
        has_count := a.has_count || containsKey "count" vals
        passes_sum := a.passes_sum + sumKey "passes" vals
        has_passes := a.has_passes || containsKey "passes" vals
        fails_sum := a.fails_sum + sumKey "fails" vals
        has_fails := a.has_fails || containsKey "fails" vals
        min_val := minFold a.min_val (keyVals "min" vals)
        has_min := a.has_min || containsKey "min" vals
        max_val := maxFold a.max_val (keyVals "max" vals)
        has_max := a.has_max || containsKey "max" vals
        avg_sum := a.avg_sum + sumKey "avg" vals
        avg_count := a.avg_count + countKey "avg" vals
        med_sum := a.med_sum + sumKey "med" vals
        med_count := a.med_count + countKey "med" vals
        p90_sum := a.p90_sum + sumKey "p(90)" vals
        p90_count := a.p90_count + countKey "p(90)" vals
        p95_sum := a.p95_sum + sumKey "p(95)" vals
        p95_count := a.p95_count + countKey "p(95)" vals
        value_sum := a.value_sum + sumKey "value" vals
        value_count := a.value_count + countKey "value" vals } := by
  rw [update_metric_aggregator, if_neg h, foldl_update_one_field_spec]

/-- Gauge `update_metric_aggregator` in closed form. -/
theorem update_spec_gauge (a : Agg) (vals : List (String × Rat)) (h : a.type = "gauge") :
    update_metric_aggregator a vals =
      { a with
        gauge_sum_min := a.gauge_sum_min + (alookup "min" vals).getD 0
        gauge_sum_max := a.gauge_sum_max + (alookup "max" vals).getD 0
        gauge_sum_value := a.gauge_sum_value + (alookup "value" vals).getD 0 } := by
  rw [update_metric_aggregator, if_pos h]

@[simp] theorem update_type (a : Agg) (vals : List (String × Rat)) :
    (update_metric_aggregator a vals).type = a.type := by
  by_cases h : a.type = "gauge"
  · rw [update_spec_gauge a vals h]
  · rw [update_spec_nongauge a vals h]

@[simp] theorem update_contains (a : Agg) (vals : List (String × Rat)) :
    (update_metric_aggregator a vals).contains = a.contains := by
  by_cases h : a.type = "gauge"
  · rw [update_spec_gauge a vals h]
  · rw [update_spec_nongauge a vals h]

@[simp] theorem update_has_rate (a : Agg) (vals : List (String × Rat)) :
    (update_metric_aggregator a vals).has_rate = a.has_rate := by
  by_cases h : a.type = "gauge"
  · rw [update_spec_gauge a vals h]
  · rw [update_spec_nongauge a vals h]

@[simp] theorem updateMany_nil (a : Agg) : updateMany a [] = a := rfl

@[simp] theorem updateMany_cons (a : Agg) (vs : List (String × Rat)) (batch : List (List (String × Rat))) :
    updateMany a (vs :: batch) = updateMany (update_metric_aggregator a vs) batch := rfl

@[simp] theorem updateMany_type (a : Agg) (batch : List (List (String × Rat))) :
    (updateMany a batch).type = a.type := by
  induction batch generalizing a with
  | nil => rfl
  | cons vs rest ih => rw [updateMany_cons, ih, update_type]

@[simp] theorem updateMany_contains (a : Agg) (batch : List (List (String × Rat))) :
    (updateMany a batch).contains = a.contains := by
  induction batch generalizing a with
  | nil => rfl
  | cons vs rest ih => rw [updateMany_cons, ih, update_contains]

@[simp] theorem updateMany_has_rate (a : Agg) (batch : List (List (String × Rat))) :
    (updateMany a batch).has_rate = a.has_rate := by
  induction batch generalizing a with
  | nil => rfl
  | cons vs rest ih => rw [updateMany_cons, ih, update_has_rate]

theorem minFold_append (cur : Option Rat) (xs ys : List Rat) :
    minFold cur (xs ++ ys) = minFold (minFold cur xs) ys := by
  simp [minFold, List.foldl_append]

theorem maxFold_append (cur : Option Rat) (xs ys : List Rat) :
    maxFold cur (xs ++ ys) = maxFold (maxFold cur xs) ys := by
  simp [maxFold, List.foldl_append]

/-- Folding a whole batch into a gauge-typed aggregator only adds the three
per-dict sums (defaulting 0 for absent keys); everything else is untouched. -/
theorem updateMany_spec_gauge (batch : List (List (String × Rat))) (a : Agg) (h : a.type = "gauge") :
    updateMany a batch =
      { a with
        gauge_sum_min := a.gauge_sum_min + gaugeSum "min" batch
        gauge_sum_max := a.gauge_sum_max + gaugeSum "max" batch
        gauge_sum_value := a.gauge_sum_value + gaugeSum "value" batch } := by
  induction batch generalizing a with
  | nil => simp [gaugeSum]
  | cons vs rest ih =>
    have ha : (update_metric_aggregator a vs).type = "gauge" := by rw [update_type]; exact h
    rw [updateMany_cons, ih _ ha, update_spec_gauge a vs h]
    simp [gaugeSum, add_assoc]

/-- Folding a whole batch into a non-gauge aggregator, in closed form. -/
theorem updateMany_spec_nongauge (batch : List (List (String × Rat))) (a : Agg) (h : ¬a.type = "gauge") :
    updateMany a batch =
      { a with
        count_sum := a.count_sum + sumKeyMany "count" batch
        has_count := a.has_count || containsKeyMany "count" batch
        passes_sum := a.passes_sum + sumKeyMany "passes" batch
        has_passes := a.has_passes || containsKeyMany "passes" batch
        fails_sum := a.fails_sum + sumKeyMany "fails" batch
        has_fails := a.has_fails || containsKeyMany "fails" batch
        min_val := minFold a.min_val (keyValsMany "min" batch)
        has_min := a.has_min || containsKeyMany "min" batch
        max_val := maxFold a.max_val (keyValsMany "max" batch)
        has_max := a.has_max || containsKeyMany "max" batch
        avg_sum := a.avg_sum + sumKeyMany "avg" batch
        avg_count := a.avg_count + countKeyMany "avg" batch
        med_sum := a.med_sum + sumKeyMany "med" batch
        med_count := a.med_count + countKeyMany "med" batch
        p90_sum := a.p90_sum + sumKeyMany "p(90)" batch
        p90_count := a.p90_count + countKeyMany "p(90)" batch
        p95_sum := a.p95_sum + sumKeyMany "p(95)" batch
        p95_count := a.p95_count + countKeyMany "p(95)" batch
        value_sum := a.value_sum + sumKeyMany "value" batch
        value_count := a.value_count + countKeyMany "value" batch } := by
  induction batch generalizing a with
  | nil => simp [sumKeyMany, containsKeyMany, countKeyMany, keyValsMany]
  | cons vs rest ih =>
    have ha : ¬(update_metric_aggregator a vs).type = "gauge" := by rw [update_type]; exact h
    rw [updateMany_cons, ih _ ha, update_spec_nongauge a vs h]
    simp [sumKeyMany, containsKeyMany, countKeyMany, keyValsMany, add_assoc,
      minFold_append, maxFold_append, Bool.or_assoc]

/-! ### `finalize_metric_aggregator` in closed form -/

/-- The `final_values` dict of a non-gauge aggregator, as the concatenation of
its conditional entries in emission order. -/
theorem finalize_spec_nongauge (a : Agg) (T : Rat) (h : ¬a.type = "gauge") :
    finalize_metric_aggregator a T =
      { type := a.type
        contains := a.contains
        values :=
          (if a.has_count = true then [("count", a.count_sum)] else []) ++
          (if a.has_passes = true then [("passes", a.passes_sum)] else []) ++
          (if a.has_fails = true then [("fails", a.fails_sum)] else []) ++
          (if a.has_min = true then [("min", a.min_val.getD 0)] else []) ++
          (if a.has_max = true then [("max", a.max_val.getD 0)] else []) ++
          (if 0 < a.avg_count then [("avg", a.avg_sum / a.avg_count)] else []) ++
          (if 0 < a.med_count then [("med", a.med_sum / a.med_count)] else []) ++
          (if 0 < a.p90_count then [("p(90)", a.p90_sum / a.p90_count)] else []) ++
          (if 0 < a.p95_count then [("p(95)", a.p95_sum / a.p95_count)] else []) ++
          (if 0 < a.value_count then [("value", a.value_sum / a.value_count)] else []) ++
          (if a.has_rate = true ∧ a.has_count = true ∧ 0 < T then [("rate", a.count_sum / T)] else []) } := by
  by_cases hc : a.has_count = true
  · simp [finalize_metric_aggregator, h, hc, chain_step, List.append_assoc]
  · simp [finalize_metric_aggregator, h, hc, chain_step, List.append_assoc]

end AggregateData
namespace AggregateData

theorem alookup_map_replace (l : List (String × Agg)) (m n : String) (vals : List (String × Rat)) :
    alookup n (l.map (fun q => if q.1 = m then (q.1, update_metric_aggregator q.2 vals) else q)) =
      if m = n then (alookup n l).map (fun x => update_metric_aggregator x vals)
      else alookup n l := by
  induction l with
  | nil => simp
  | cons q rest ih =>
    by_cases hqm : q.1 = m
    · by_cases hqn : q.1 = n
      · simp [hqm, hqn, hqm ▸ hqn]
      · have hmn : ¬m = n := fun e => hqn (hqm.trans e)
        simp [hqm, hqn, hmn, ih]
    · by_cases hqn : q.1 = n
      · have hmn : ¬m = n := fun e2 : m = n => hqm (e2.symm ▸ hqn)
        have hnm : ¬n = m := fun e2 : n = m => hmn e2.symm
        simp [hqm, hqn, hmn, hnm, ih]
      · simp [hqm, hqn, ih]

/-- What one `(m_name, m_data)` item does to the registry, seen through
lookups: the entry for `m_name` is created (from this item) if absent, then
updated with this item's `values`; all other entries are untouched. -/
theorem alookup_ingest_item (reg : List (String × Agg)) (item : String × MetricEntry) (n : String) :
    alookup n (ingest_metric_item reg item) =
      if item.1 = n then
        some (update_metric_aggregator
          ((alookup n reg).getD
            (create_metric_aggregator (item.2.type.getD "") (item.2.contains.getD "")))
          (item.2.values.getD []))
      else alookup n reg := by
  rcases item with ⟨m, e⟩
  by_cases hm : m = n
  · subst hm
    rcases hreg : alookup m reg with _ | a
    · simp [ingest_metric_item, hreg, alookup_map_replace]
    · simp [ingest_metric_item, hreg, alookup_map_replace]
  · have hnm : ¬n = m := fun e2 : n = m => hm e2.symm
    rcases hreg : alookup m reg with _ | a
    · simp only [ingest_metric_item, hreg, alookup_map_replace, hm, hnm, Option.isSome_none,
        Bool.false_eq_true, if_false, alookup_append]
      rcases alookup n reg with _ | b <;> simp [hnm, hm]
    · simp [ingest_metric_item, hreg, alookup_map_replace, hm, hnm]

@[simp] theorem contribsItems_nil (n : String) : contribsItems n [] = [] := rfl

@[simp] theorem contribsItems_cons (n : String) (p : String × MetricEntry)
    (rest : List (String × MetricEntry)) :
    contribsItems n (p :: rest) =
      if p.1 = n then p.2.values.getD [] :: contribsItems n rest else contribsItems n rest := rfl

/-- Folding any item list into the registry, seen through lookups: the final
aggregator for `n` starts from the registry's entry (or, when absent, from
`create_metric_aggregator` fed with the first item for `n`) and absorbs every
`values` dict carrying name `n`, in order. -/
theorem alookup_foldl_ingest (items : List (String × MetricEntry))
    (reg : List (String × Agg)) (n : String) :
    alookup n (items.foldl ingest_metric_item reg) =
      match alookup n reg with
      | some a => some (updateMany a (contribsItems n items))
      | none =>
        (firstTCItems n items).map
          (fun tc => updateMany (create_metric_aggregator tc.1 tc.2) (contribsItems n items))
  := by
  induction items generalizing reg with
  | nil =>
    rcases h : alookup n reg with _ | a <;> simp [h, firstTCItems]
  | cons item rest ih =>
    rw [List.foldl_cons, ih (ingest_metric_item reg item)]
    rcases item with ⟨m, e⟩
    by_cases hm : m = n
    · subst hm
      rcases hreg : alookup m reg with _ | a
      · simp [alookup_ingest_item, hreg, firstTCItems]
      · simp [alookup_ingest_item, hreg, firstTCItems]
    · rcases hreg : alookup n reg with _ | a
      · simp [alookup_ingest_item, hreg, hm, firstTCItems]
      · simp [alookup_ingest_item, hreg, hm, firstTCItems]

@[simp] theorem metricItems_nil : metricItems [] = [] := rfl

@[simp] theorem metricItems_cons (d : Document) (rest : List Document) :
    metricItems (d :: rest) = d.metrics.getD [] ++ metricItems rest := rfl

theorem metric_aggregators_eq_foldl_items (docs : List Document) (reg : List (String × Agg)) :
    docs.foldl ingest_doc reg = (metricItems docs).foldl ingest_metric_item reg := by
  induction docs generalizing reg with
  | nil => rfl
  | cons d rest ih =>
    rw [List.foldl_cons, metricItems_cons, List.foldl_append, ih]
    rfl

/-- The aggregator registry of a merge, seen through lookups: metric name `n`
has an entry iff some document mentions it, and that entry is exactly "create
from the first item's `type`/`contains`, then fold in every contribution". -/
theorem alookup_metric_aggregators (docs : List Document) (n : String) :
    alookup n (metric_aggregators docs) =
      (firstTC n docs).map
        (fun tc => updateMany (create_metric_aggregator tc.1 tc.2) (contribs n docs)) := by
  rw [metric_aggregators, metric_aggregators_eq_foldl_items, alookup_foldl_ingest]
  rfl

theorem alookup_map_snd {β γ : Type} (f : β → γ) (l : List (String × β)) (n : String) :
    alookup n (l.map (fun p => (p.1, f p.2))) = (alookup n l).map f := by
  induction l with
  | nil => simp
  | cons p rest ih =>
    by_cases hp : p.1 = n
    · simp [hp]
    · simp [hp, ih]

/-- The merged `.metrics` entry for name `n`, in closed form. -/
theorem alookup_merged_metrics (docs : List Document) (n : String) :
    alookup n (merged_metrics docs) =
      (firstTC n docs).map
        (fun tc =>
          finalize_metric_aggregator
            (updateMany (create_metric_aggregator tc.1 tc.2) (contribs n docs))
            (total_time_s docs)) := by
  rw [merged_metrics,
    alookup_map_snd (fun a => finalize_metric_aggregator a (total_time_s docs)),
    alookup_metric_aggregators]
  rcases firstTC n docs with _ | tc <;> simp

end AggregateData
namespace AggregateData

/-- The whole gauge pipeline: create a gauge aggregator, fold in a batch,
finalize. The output is exactly the three per-document sums, nothing else. -/
theorem finalize_gauge_pipeline (c : String) (batch : List (List (String × Rat))) (T : Rat) :
    finalize_metric_aggregator (updateMany (create_metric_aggregator "gauge" c) batch) T =
      { type := "gauge"
        contains := c
        values :=
          [("min", gaugeSum "min" batch), ("max", gaugeSum "max" batch),
           ("value", gaugeSum "value" batch)] } := by
  rw [updateMany_spec_gauge batch _ rfl]
  simp [finalize_metric_aggregator, create_metric_aggregator, dictSet]

end AggregateData
namespace AggregateData

theorem alookup_filter_out {β : Type} (vs : List (String × β)) (k key0 : String) (h : ¬k = key0) :
    alookup k (vs.filter (fun p => p.1 ≠ key0)) = alookup k vs := by
  induction vs with
  | nil => rfl
  | cons p rest ih =>
    simp only [ne_eq, decide_not] at ih ⊢
    by_cases hp : p.1 = key0
    · have hpk : ¬p.1 = k := fun e2 : p.1 = k => h (e2 ▸ hp)
      have hkk : ¬key0 = k := fun e2 : key0 = k => h e2.symm
      simp [List.filter_cons, hp, hpk, hkk, ih]
    · simp only [List.filter_cons]
      simp [hp, ih]

theorem foldl_update_filter_rate (vs : List (String × Rat)) (a : Agg) :
    (vs.filter (fun p => p.1 ≠ "rate")).foldl update_one_field a = vs.foldl update_one_field a := by
  induction vs generalizing a with
  | nil => rfl
  | cons p rest ih =>
    simp only [ne_eq, decide_not] at ih ⊢
    rcases p with ⟨k, v⟩
    by_cases hk : k = "rate"
    · subst hk
      simp [List.filter_cons, update_one_field_rate, ih]
    · simp only [List.filter_cons]
      simp [hk, ih]

/-- Stray `rate` entries in an input `values` dict never influence the
aggregator: updating with the dict minus its `rate` entries is the same. -/
theorem update_filter_rate (a : Agg) (vs : List (String × Rat)) :
    update_metric_aggregator a (vs.filter (fun p => p.1 ≠ "rate")) =
      update_metric_aggregator a vs := by
  by_cases h : a.type = "gauge"
  · rw [update_spec_gauge _ _ h, update_spec_gauge _ _ h]
    rw [alookup_filter_out vs "min" "rate" (by decide),
      alookup_filter_out vs "max" "rate" (by decide),
      alookup_filter_out vs "value" "rate" (by decide)]
  · rw [update_metric_aggregator, update_metric_aggregator, if_neg h, if_neg h,
      foldl_update_filter_rate]

theorem alookup_filter_mem {β : Type} (vs : List (String × β)) (k : String) (R : List String)
    (h : k ∈ R) : alookup k (vs.filter (fun p => p.1 ∈ R)) = alookup k vs := by
  induction vs with
  | nil => rfl
  | cons p rest ih =>
    by_cases hp : p.1 ∈ R
    · simp only [List.filter_cons]
      simp [hp, ih]
    · have hpk : ¬p.1 = k := fun e2 : p.1 = k => hp (e2 ▸ h)
      simp [List.filter_cons, hp, hpk, ih]

theorem foldl_update_filter_recognized (vs : List (String × Rat)) (a : Agg) :
    (vs.filter (fun p => p.1 ∈ recognizedKeys)).foldl update_one_field a =
      vs.foldl update_one_field a := by
  induction vs generalizing a with
  | nil => rfl
  | cons p rest ih =>
    rcases p with ⟨k, v⟩
    by_cases hk : k ∈ recognizedKeys
    · simp only [List.filter_cons]
      simp [hk, ih]
    · simp [List.filter_cons, hk, update_one_field_other a k v hk, ih]

/-- Unrecognized keys in an input `values` dict never influence the
aggregator: updating with the dict restricted to recognized keys is the same. -/
theorem update_filter_recognized (a : Agg) (vs : List (String × Rat)) :
    update_metric_aggregator a (vs.filter (fun p => p.1 ∈ recognizedKeys)) =
      update_metric_aggregator a vs := by
  by_cases h : a.type = "gauge"
  · rw [update_spec_gauge _ _ h, update_spec_gauge _ _ h]
    rw [alookup_filter_mem vs "min" recognizedKeys (by decide),
      alookup_filter_mem vs "max" recognizedKeys (by decide),
      alookup_filter_mem vs "value" recognizedKeys (by decide)]
  · rw [update_metric_aggregator, update_metric_aggregator, if_neg h, if_neg h,
      foldl_update_filter_recognized]

end AggregateData
namespace AggregateData

theorem ingest_item_congr (f : MetricEntry → MetricEntry)
    (hty : ∀ e, (f e).type.getD "" = e.type.getD "")
    (hco : ∀ e, (f e).contains.getD "" = e.contains.getD "")
    (hupd : ∀ (a : Agg) (e : MetricEntry),
      update_metric_aggregator a ((f e).values.getD []) =
        update_metric_aggregator a (e.values.getD []))
    (reg : List (String × Agg)) (p : String × MetricEntry) :
    ingest_metric_item reg (p.1, f p.2) = ingest_metric_item reg p := by
  simp only [ingest_metric_item, hty, hco, hupd]

theorem foldl_ingest_congr (f : MetricEntry → MetricEntry)
    (hty : ∀ e, (f e).type.getD "" = e.type.getD "")
    (hco : ∀ e, (f e).contains.getD "" = e.contains.getD "")
    (hupd : ∀ (a : Agg) (e : MetricEntry),
      update_metric_aggregator a ((f e).values.getD []) =
        update_metric_aggregator a (e.values.getD []))
    (items : List (String × MetricEntry)) (reg : List (String × Agg)) :
    (items.map (fun p => (p.1, f p.2))).foldl ingest_metric_item reg =
      items.foldl ingest_metric_item reg := by
  induction items generalizing reg with
  | nil => rfl
  | cons p rest ih =>
    simp only [List.map_cons, List.foldl_cons, ingest_item_congr f hty hco hupd, ih]

theorem metricItems_map_congr (g : Document → Document) (f : MetricEntry → MetricEntry)
    (hme : ∀ d, (g d).metrics.getD [] = (d.metrics.getD []).map (fun p => (p.1, f p.2)))
    (docs : List Document) :
    metricItems (docs.map g) = (metricItems docs).map (fun p => (p.1, f p.2)) := by
  induction docs with
  | nil => rfl
  | cons d rest ih => simp [metricItems_cons, hme, ih]

/-- A document transformation that leaves every field the engine reads
unchanged leaves the whole merge unchanged. -/
theorem combine_map_congr (g : Document → Document) (f : MetricEntry → MetricEntry)
    (hrg : ∀ d, (g d).root_group.getD [] = d.root_group.getD [])
    (hop : ∀ d, (g d).options.getD [] = d.options.getD [])
    (hst : ∀ d, (g d).state.getD [] = d.state.getD [])
    (hme : ∀ d, (g d).metrics.getD [] = (d.metrics.getD []).map (fun p => (p.1, f p.2)))
    (hty : ∀ e, (f e).type.getD "" = e.type.getD "")
    (hco : ∀ e, (f e).contains.getD "" = e.contains.getD "")
    (hupd : ∀ (a : Agg) (e : MetricEntry),
      update_metric_aggregator a ((f e).values.getD []) =
        update_metric_aggregator a (e.values.getD []))
    (docs : List Document) :
    combine_all_docs (docs.map g) = combine_all_docs docs := by
  have hdur : max_duration_ms (docs.map g) = max_duration_ms docs := by
    simp only [max_duration_ms, List.foldl_map, hst]
  have hreg : ∀ reg : List (String × Agg),
      (docs.map g).foldl ingest_doc reg = docs.foldl ingest_doc reg := by
    intro reg
    rw [metric_aggregators_eq_foldl_items, metric_aggregators_eq_foldl_items,
      metricItems_map_congr g f hme, foldl_ingest_congr f hty hco hupd]
  have hmm : merged_metrics (docs.map g) = merged_metrics docs := by
    simp only [merged_metrics, metric_aggregators, total_time_s, hdur, hreg]
  cases docs with
  | nil => rfl
  | cons first rest =>
    simp only [List.map_cons, combine_all_docs]
    rw [hrg, hop, hst]
    have h2 : max_duration_ms (g first :: rest.map g) = max_duration_ms (first :: rest) := hdur
    have h3 : merged_metrics (g first :: rest.map g) = merged_metrics (first :: rest) := hmm
    rw [h2, h3]

end AggregateData
namespace AggregateData

/-- Deleting stray `rate` entries from every document changes nothing. -/
theorem combine_stripRate (docs : List Document) :
    combine_all_docs (docs.map stripRateDoc) = combine_all_docs docs :=
  combine_map_congr stripRateDoc stripRateEntry
    (fun _ => rfl) (fun _ => rfl) (fun _ => rfl)
    (fun d => by cases hm : d.metrics <;> simp [stripRateDoc, hm])
    (fun _ => rfl) (fun _ => rfl)
    (fun a e => by
      cases hv : e.values with
      | none => simp [stripRateEntry, hv]
      | some vs => simpa [stripRateEntry, hv] using update_filter_rate a vs)
    docs

/-- Deleting unrecognized `values` keys from every document changes nothing. -/
theorem combine_stripUnrecognized (docs : List Document) :
    combine_all_docs (docs.map stripUnrecognizedDoc) = combine_all_docs docs :=
  combine_map_congr stripUnrecognizedDoc stripUnrecognizedEntry
    (fun _ => rfl) (fun _ => rfl) (fun _ => rfl)
    (fun d => by cases hm : d.metrics <;> simp [stripUnrecognizedDoc, hm])
    (fun _ => rfl) (fun _ => rfl)
    (fun a e => by
      cases hv : e.values with
      | none => simp [stripUnrecognizedEntry, hv]
      | some vs => simpa [stripUnrecognizedEntry, hv] using update_filter_recognized a vs)
    docs

/-- Making every defaulted (absent) field explicit changes nothing. -/
theorem combine_fill (docs : List Document) :
    combine_all_docs (docs.map fillDoc) = combine_all_docs docs :=
  combine_map_congr fillDoc fillEntry
    (fun d => by simp [fillDoc]) (fun d => by simp [fillDoc]) (fun d => by simp [fillDoc])
    (fun d => by simp [fillDoc])
    (fun e => by simp [fillEntry]) (fun e => by simp [fillEntry])
    (fun a e => by simp [fillEntry])
    docs

/-! ### Duration resolver lemmas -/

theorem max_duration_ms_eq_foldl_max (docs : List Document) :
    max_duration_ms docs =
      (docs.map (fun d => (alookup "testRunDurationMs" (d.state.getD [])).getD 0)).foldl max 0 := by
  rw [max_duration_ms, List.foldl_map]
  have hfun : ∀ (l : List Document) (acc : Rat),
      l.foldl (fun acc doc =>
        let dur := (alookup "testRunDurationMs" (doc.state.getD [])).getD 0
        if dur > acc then dur else acc) acc =
      l.foldl (fun acc doc =>
        max acc ((alookup "testRunDurationMs" (doc.state.getD [])).getD 0)) acc := by
    intro l
    induction l with
    | nil => intro acc; rfl
    | cons d rest ih =>
      intro acc
      rw [List.foldl_cons, List.foldl_cons, ih]
      have : (if (alookup "testRunDurationMs" (d.state.getD [])).getD 0 > acc then
          (alookup "testRunDurationMs" (d.state.getD [])).getD 0 else acc) =
          max acc ((alookup "testRunDurationMs" (d.state.getD [])).getD 0) := by
        rcases le_or_lt ((alookup "testRunDurationMs" (d.state.getD [])).getD 0) acc with hle | hlt
        · rw [if_neg (not_lt.mpr hle), max_eq_left hle]
        · rw [if_pos hlt, max_eq_right hlt.le]
      rw [this]
  exact hfun docs 0

theorem le_foldl_max (l : List Rat) (a : Rat) : a ≤ l.foldl max a := by
  induction l generalizing a with
  | nil => exact le_refl a
  | cons x rest ih => exact le_trans (le_max_left a x) (ih (max a x))

theorem max_duration_ms_nonneg (docs : List Document) : 0 ≤ max_duration_ms docs := by
  rw [max_duration_ms_eq_foldl_max]
  exact le_foldl_max _ 0

theorem total_time_s_nonneg (docs : List Document) : 0 ≤ total_time_s docs := by
  rw [total_time_s]
  exact div_nonneg (max_duration_ms_nonneg docs) (by norm_num)

end AggregateData
namespace AggregateData

theorem alookup_map_overwrite {β : Type} (d : List (String × β)) (k : String) (v : β) :
    alookup k (d.map (fun p => if p.1 = k then (k, v) else p)) =
      if (alookup k d).isSome then some v else none := by
  induction d with
  | nil => simp
  | cons p rest ih =>
    by_cases hp : p.1 = k
    · simp [hp]
    · simp [hp, ih]

/-- After `d[k] = v`, looking up `k` gives `v`. -/
theorem alookup_dictSet_self {β : Type} (d : List (String × β)) (k : String) (v : β) :
    alookup k (dictSet d k v) = some v := by
  rw [dictSet]
  rcases h : alookup k d with _ | w
  · simp [h]
  · simp [h, alookup_map_overwrite]

theorem alookup_map_overwrite_other {β : Type} (d : List (String × β)) (k k2 : String) (v : β)
    (h : ¬k2 = k) :
    alookup k2 (d.map (fun p => if p.1 = k then (k, v) else p)) = alookup k2 d := by
  induction d with
  | nil => simp
  | cons p rest ih =>
    by_cases hp : p.1 = k
    · have hp2 : ¬p.1 = k2 := fun e2 : p.1 = k2 => h (e2.symm.trans hp)
      have hk2 : ¬k = k2 := fun e2 : k = k2 => h e2.symm
      simp [hp, hp2, hk2, ih]
    · by_cases hq : p.1 = k2
      · simp [hp, hq, h]
      · simp [hp, hq, ih]

/-- After `d[k] = v`, every other key is unchanged. -/
theorem alookup_dictSet_other {β : Type} (d : List (String × β)) (k k2 : String) (v : β)
    (h : ¬k2 = k) : alookup k2 (dictSet d k v) = alookup k2 d := by
  rw [dictSet]
  split
  · exact alookup_map_overwrite_other d k k2 v h
  · have hk2 : ¬k = k2 := fun e2 : k = k2 => h e2.symm
    rcases h2 : alookup k2 d with _ | w
    · simp [h2, hk2]
    · simp [h2]

/-- If no document carries a duration key at all, the resolved maximum is 0. -/
theorem max_duration_ms_all_absent (docs : List Document)
    (h : ∀ d ∈ docs, alookup "testRunDurationMs" (d.state.getD []) = none) :
    max_duration_ms docs = 0 := by
  induction docs with
  | nil => rfl
  | cons d rest ih =>
    have hd := h d (List.mem_cons_self d rest)
    have hr : ∀ d2 ∈ rest, alookup "testRunDurationMs" (d2.state.getD []) = none :=
      fun d2 hm => h d2 (List.mem_cons_of_mem d hm)
    rw [max_duration_ms] at ih ⊢
    rw [List.foldl_cons]
    simpa [hd] using ih hr

@[simp] theorem total_time_s_nil : total_time_s [] = 0 := by
  simp [total_time_s, max_duration_ms]

end AggregateData
namespace AggregateData

@[simp] theorem combine_metrics_getD (docs : List Document) :
    ((combine_all_docs docs).metrics).getD [] = merged_metrics docs := by
  cases docs with
  | nil => rfl
  | cons first rest => rfl

theorem containsKey_eq_isSome {β : Type} (k : String) (vs : List (String × β)) :
    containsKey k vs = (alookup k vs).isSome := by
  induction vs with
  | nil => rfl
  | cons p rest ih =>
    by_cases hp : p.1 = k
    · simp [containsKey, hp]
    · simp [containsKey, hp, ih]

theorem sumKey_of_alookup_none (k : String) (vs : List (String × Rat))
    (h : alookup k vs = none) : sumKey k vs = 0 := by
  induction vs with
  | nil => rfl
  | cons p rest ih =>
    by_cases hp : p.1 = k
    · simp [hp] at h
    · simp only [alookup_cons, if_neg hp] at h
      simp [sumKey, hp, ih h]

theorem countKey_of_alookup_none {β : Type} (k : String) (vs : List (String × β))
    (h : alookup k vs = none) : countKey k vs = 0 := by
  induction vs with
  | nil => rfl
  | cons p rest ih =>
    by_cases hp : p.1 = k
    · simp [hp] at h
    · simp only [alookup_cons, if_neg hp] at h
      simp [countKey, hp, ih h]

theorem keyVals_of_alookup_none (k : String) (vs : List (String × Rat))
    (h : alookup k vs = none) : keyVals k vs = [] := by
  induction vs with
  | nil => rfl
  | cons p rest ih =>
    by_cases hp : p.1 = k
    · simp [hp] at h
    · simp only [alookup_cons, if_neg hp] at h
      simp [keyVals, hp, ih h]

theorem alookup_none_of_all_ne {β : Type} (k : String) (vs : List (String × β))
    (h : ∀ q ∈ vs, ¬q.1 = k) : alookup k vs = none := by
  induction vs with
  | nil => rfl
  | cons p rest ih =>
    simp only [alookup_cons, if_neg (h p (List.mem_cons_self p rest))]
    exact ih (fun q hq => h q (List.mem_cons_of_mem p hq))

theorem sumKey_nodup (k : String) (vs : List (String × Rat))
    (hnd : vs.Pairwise (fun p q => ¬p.1 = q.1)) : sumKey k vs = (alookup k vs).getD 0 := by
  induction vs with
  | nil => rfl
  | cons p rest ih =>
    rcases List.pairwise_cons.mp hnd with ⟨hp, hrest⟩
    by_cases hk : p.1 = k
    · have hnone : alookup k rest = none :=
        alookup_none_of_all_ne k rest (fun q hq => fun e2 : q.1 = k => hp q hq (hk.trans e2.symm) )
      simp [sumKey, hk, sumKey_of_alookup_none k rest hnone]
    · simp [sumKey, hk, ih hrest]

theorem countKey_nodup {β : Type} (k : String) (vs : List (String × β))
    (hnd : vs.Pairwise (fun p q => ¬p.1 = q.1)) :
    countKey k vs = if (alookup k vs).isSome then 1 else 0 := by
  induction vs with
  | nil => rfl
  | cons p rest ih =>
    rcases List.pairwise_cons.mp hnd with ⟨hp, hrest⟩
    by_cases hk : p.1 = k
    · have hnone : alookup k rest = none :=
        alookup_none_of_all_ne k rest (fun q hq => fun e2 : q.1 = k => hp q hq (hk.trans e2.symm))
      simp [countKey, hk, countKey_of_alookup_none k rest hnone]
    · simp [countKey, hk, ih hrest]

theorem keyVals_nodup (k : String) (vs : List (String × Rat))
    (hnd : vs.Pairwise (fun p q => ¬p.1 = q.1)) : keyVals k vs = (alookup k vs).toList := by
  induction vs with
  | nil => rfl
  | cons p rest ih =>
    rcases List.pairwise_cons.mp hnd with ⟨hp, hrest⟩
    by_cases hk : p.1 = k
    · have hnone : alookup k rest = none :=
        alookup_none_of_all_ne k rest (fun q hq => fun e2 : q.1 = k => hp q hq (hk.trans e2.symm))
      simp [keyVals, hk, keyVals_of_alookup_none k rest hnone]
    · simp [keyVals, hk, ih hrest]

end AggregateData
namespace AggregateData

theorem minFold_some_eq (a : Rat) (vs : List Rat) : minFold (some a) vs = some (vs.foldl min a) := by
  induction vs generalizing a with
  | nil => rfl
  | cons v rest ih =>
    rw [minFold_cons, List.foldl_cons]
    have hstep : minStep (some a) v = some (min a v) := by
      rw [minStep]
      rcases lt_or_le v a with hlt | hle
      · rw [if_pos hlt, min_eq_right hlt.le]
      · rw [if_neg (not_lt.mpr hle), min_eq_left hle]
    rw [hstep, ih]

theorem maxFold_some_eq (a : Rat) (vs : List Rat) : maxFold (some a) vs = some (vs.foldl max a) := by
  induction vs generalizing a with
  | nil => rfl
  | cons v rest ih =>
    rw [maxFold_cons, List.foldl_cons]
    have hstep : maxStep (some a) v = some (max a v) := by
      rw [maxStep]
      rcases lt_or_le a v with hlt | hle
      · rw [if_pos hlt, max_eq_right hlt.le]
      · rw [if_neg (not_lt.mpr hle), max_eq_left hle]
    rw [hstep, ih]

theorem foldl_min_le_init (vs : List Rat) (a : Rat) : vs.foldl min a ≤ a := by
  induction vs generalizing a with
  | nil => exact le_refl a
  | cons v rest ih => exact le_trans (ih (min a v)) (min_le_left a v)

theorem foldl_min_le_mem (vs : List Rat) (a x : Rat) (h : x ∈ vs) : vs.foldl min a ≤ x := by
  induction vs generalizing a with
  | nil => cases h
  | cons v rest ih =>
    rcases List.mem_cons.mp h with he | hm
    · subst he
      exact le_trans (foldl_min_le_init rest (min a x)) (min_le_right a x)
    · exact ih (min a v) hm

theorem foldl_min_mem (vs : List Rat) (a : Rat) : vs.foldl min a ∈ a :: vs := by
  induction vs generalizing a with
  | nil => exact List.mem_singleton.mpr rfl
  | cons v rest ih =>
    rw [List.foldl_cons]
    rcases List.mem_cons.mp (ih (min a v)) with he | hm
    · rcases min_choice a v with h1 | h1
      · rw [he, h1]
        exact List.mem_cons_self a (v :: rest)
      · rw [he, h1]
        exact List.mem_cons_of_mem a (List.mem_cons_self v rest)
    · exact List.mem_cons_of_mem a (List.mem_cons_of_mem v hm)

theorem foldl_max_init_le (vs : List Rat) (a : Rat) : a ≤ vs.foldl max a := by
  induction vs generalizing a with
  | nil => exact le_refl a
  | cons v rest ih => exact le_trans (le_max_left a v) (ih (max a v))

theorem foldl_max_mem_le (vs : List Rat) (a x : Rat) (h : x ∈ vs) : x ≤ vs.foldl max a := by
  induction vs generalizing a with
  | nil => cases h
  | cons v rest ih =>
    rcases List.mem_cons.mp h with he | hm
    · subst he
      exact le_trans (le_max_right a x) (foldl_max_init_le rest (max a x))
    · exact ih (max a v) hm

theorem foldl_max_mem (vs : List Rat) (a : Rat) : vs.foldl max a ∈ a :: vs := by
  induction vs generalizing a with
  | nil => exact List.mem_singleton.mpr rfl
  | cons v rest ih =>
    rw [List.foldl_cons]
    rcases List.mem_cons.mp (ih (max a v)) with he | hm
    · rcases max_choice a v with h1 | h1
      · rw [he, h1]
        exact List.mem_cons_self a (v :: rest)
      · rw [he, h1]
        exact List.mem_cons_of_mem a (List.mem_cons_self v rest)
    · exact List.mem_cons_of_mem a (List.mem_cons_of_mem v hm)

theorem keyVals_eq_nil_iff (k : String) (vs : List (String × Rat)) :
    keyVals k vs = [] ↔ containsKey k vs = false := by
  induction vs with
  | nil => simp [keyVals, containsKey]
  | cons p rest ih =>
    by_cases hp : p.1 = k
    · simp [keyVals, containsKey, hp]
    · simp [keyVals, containsKey, hp, ih]

theorem keyValsMany_eq_nil_iff (k : String) (batch : List (List (String × Rat))) :
    keyValsMany k batch = [] ↔ containsKeyMany k batch = false := by
  induction batch with
  | nil => simp [keyValsMany, containsKeyMany]
  | cons vs rest ih =>
    rw [keyValsMany, containsKeyMany]
    rw [List.append_eq_nil]
    by_cases hc : containsKey k vs
    · simp [hc, keyVals_eq_nil_iff, ih]
    · have hcf : containsKey k vs = false := by simpa using hc
      simp [hcf, keyVals_eq_nil_iff, ih]

end AggregateData
namespace AggregateData

@[simp] theorem finalize_type (a : Agg) (T : Rat) :
    (finalize_metric_aggregator a T).type = a.type := rfl

@[simp] theorem finalize_contains (a : Agg) (T : Rat) :
    (finalize_metric_aggregator a T).contains = a.contains := rfl

@[simp] theorem create_type (t c : String) : (create_metric_aggregator t c).type = t := rfl

@[simp] theorem create_contains (t c : String) : (create_metric_aggregator t c).contains = c := rfl

/-- C3. Gauge metrics sum and emit nothing else: whenever the aggregator for
metric `n` is created as a gauge, the merged entry's values are exactly
`min`/`max`/`value`, each the sum over the contributing documents' reported
field (0 when absent) — no other field appears. -/
theorem C3_gauge_exact (docs : List Document) (n c : String)
    (h : firstTC n docs = some ("gauge", c)) :
    alookup n ((combine_all_docs docs).metrics.getD []) =
      some { type := "gauge"
             contains := c
             values := [("min", gaugeSum "min" (contribs n docs)),
                        ("max", gaugeSum "max" (contribs n docs)),
                        ("value", gaugeSum "value" (contribs n docs))] } := by
  rw [combine_metrics_getD, alookup_merged_metrics, h]
  simp only [Option.map_some']
  rw [finalize_gauge_pipeline]

/-- Witness for C3 at the spec's own gauge example: `min=5,max=20,value=7`
merged with `min=2,max=25,value=3` is exactly `min=7, max=45, value=10`. -/
theorem C3_witness :
    alookup "g" ((combine_all_docs [gaugeDocA, gaugeDocB]).metrics.getD []) =
      some { type := "gauge"
             contains := "data"
             values := [("min", 7), ("max", 45), ("value", 10)] } := by
  rw [C3_gauge_exact [gaugeDocA, gaugeDocB] "g" "data" (by rfl)]
  simp [contribs, contribsItems, metricItems, gaugeDocA, gaugeDocB, gaugeSum, alookup]
  norm_num

/-- C5 (amended). The resolved total time is the maximum of 0 and every
document's duration (in ms, defaulting 0 when absent) divided by 1000; it is
never negative, and an empty sequence yields 0. -/
theorem C5_duration_resolver (docs : List Document) :
    total_time_s docs =
      (docs.map (fun d => (alookup "testRunDurationMs" (d.state.getD [])).getD 0)).foldl max 0
        / 1000 ∧
    0 ≤ total_time_s docs ∧ total_time_s ([] : List Document) = 0 :=
  ⟨by rw [total_time_s, max_duration_ms_eq_foldl_max], total_time_s_nonneg docs, total_time_s_nil⟩

/-- Counterexample to C5 as stated: for a document reporting a negative
duration, the resolved total time is 0, not the (negative) maximum of the
documents' duration fields divided by 1000. -/
theorem C5_counterexample :
    total_time_s [negDurationDoc] = 0 ∧
    (alookup "testRunDurationMs" (negDurationDoc.state.getD [])).getD 0 / 1000 = -1 ∧
    ¬total_time_s [negDurationDoc] =
        (alookup "testRunDurationMs" (negDurationDoc.state.getD [])).getD 0 / 1000 := by
  refine ⟨?_, ?_, ?_⟩ <;>
    norm_num [total_time_s, max_duration_ms, negDurationDoc, alookup]

/-- C7. First-type-wins and created-once: the merged entry for metric `n` is
exactly "create one aggregator from the first item's `type`/`contains`, fold
in every contribution, finalize" — later items' `type`/`contains` are never
consulted — and the output entry carries that first `type`/`contains`. -/
theorem C7_first_type_wins (docs : List Document) (n : String) (tc : String × String)
    (h : firstTC n docs = some tc) :
    alookup n ((combine_all_docs docs).metrics.getD []) =
      some (finalize_metric_aggregator
        (updateMany (create_metric_aggregator tc.1 tc.2) (contribs n docs))
        (total_time_s docs)) ∧
    ∀ out, alookup n ((combine_all_docs docs).metrics.getD []) = some out →
      out.type = tc.1 ∧ out.contains = tc.2 := by
  have h1 : alookup n ((combine_all_docs docs).metrics.getD []) =
      some (finalize_metric_aggregator
        (updateMany (create_metric_aggregator tc.1 tc.2) (contribs n docs))
        (total_time_s docs)) := by
    rw [combine_metrics_getD, alookup_merged_metrics, h]
    simp only [Option.map_some']
  refine ⟨h1, fun out hout => ?_⟩
  rw [h1] at hout
  have h2 := Option.some.inj hout
  rw [← h2]
  simp

/-- Witness for C7: when one worker declares `m` a gauge and a later worker
declares it a counter, the merge keeps the gauge type, the first `contains`
and the gauge accumulation rule for both documents' values. -/
theorem C7_witness :
    alookup "m" ((combine_all_docs [conflictDocA, conflictDocB]).metrics.getD []) =
      some { type := "gauge"
             contains := "g1"
             values := [("min", 0), ("max", 0), ("value", 10)] } := by
  rw [(C7_first_type_wins [conflictDocA, conflictDocB] "m" ("gauge", "g1") (by rfl)).1]
  rw [finalize_gauge_pipeline]
  simp [contribs, contribsItems, metricItems, conflictDocA, conflictDocB, gaugeSum, alookup]
  norm_num

/-- C9. Permissive totality: dropping every unrecognized `values` key changes
nothing anywhere in the merged output, and replacing every absent
(defaulted) section or field by its explicit default also changes nothing —
malformed or partial documents are absorbed by defaulting, never by failing. -/
theorem C9_permissive (docs : List Document) :
    combine_all_docs (docs.map stripUnrecognizedDoc) = combine_all_docs docs ∧
    combine_all_docs (docs.map fillDoc) = combine_all_docs docs :=
  ⟨combine_stripUnrecognized docs, combine_fill docs⟩

/-- C8. Output assembly and frame: `root_group`/`options` are copied verbatim
from the first document, `state` is the first document's state with only the
duration key overwritten by the resolved maximum (every other key unchanged),
`metrics` is the finalized mapping, and the empty batch yields the empty
document. -/
theorem C8_output_assembly (first : Document) (rest : List Document)
    (rg op : List (String × Rat))
    (hrg : first.root_group = some rg) (hop : first.options = some op) :
    (combine_all_docs (first :: rest)).root_group = some rg ∧
    (combine_all_docs (first :: rest)).options = some op ∧
    (combine_all_docs (first :: rest)).state =
      some (dictSet (first.state.getD []) "testRunDurationMs" (max_duration_ms (first :: rest))) ∧
    (∀ k, ¬k = "testRunDurationMs" →
      alookup k ((combine_all_docs (first :: rest)).state.getD []) =
        alookup k (first.state.getD [])) ∧
    alookup "testRunDurationMs" ((combine_all_docs (first :: rest)).state.getD []) =
      some (max_duration_ms (first :: rest)) ∧
    (combine_all_docs (first :: rest)).metrics = some (merged_metrics (first :: rest)) ∧
    combine_all_docs ([] : List Document) =
      { root_group := none, options := none, state := none, metrics := none } := by
  refine ⟨?_, ?_, rfl, ?_, ?_, rfl, rfl⟩
  · show some (first.root_group.getD []) = some rg
    rw [hrg]
    rfl
  · show some (first.options.getD []) = some op
    rw [hop]
    rfl
  · intro k hk
    show alookup k ((some (dictSet (first.state.getD []) "testRunDurationMs"
        (max_duration_ms (first :: rest)))).getD []) = _
    rw [Option.getD_some]
    exact alookup_dictSet_other _ _ _ _ hk
  · show alookup "testRunDurationMs" ((some (dictSet (first.state.getD []) "testRunDurationMs"
        (max_duration_ms (first :: rest)))).getD []) = _
    rw [Option.getD_some]
    exact alookup_dictSet_self _ _ _

/-- Witness for C8 on a concrete document. -/
theorem C8_witness :
    (combine_all_docs [c8doc]).root_group = some [("r", 1)] ∧
    (combine_all_docs [c8doc]).options = some [("o", 2)] ∧
    alookup "other" ((combine_all_docs [c8doc]).state.getD []) = some 9 ∧
    alookup "testRunDurationMs" ((combine_all_docs [c8doc]).state.getD []) = some 500 := by
  have h := C8_output_assembly c8doc [] [("r", 1)] [("o", 2)] rfl rfl
  refine ⟨h.1, h.2.1, ?_, ?_⟩
  · rw [h.2.2.2.1 "other" (by decide)]
    simp [c8doc, alookup]
  · rw [h.2.2.2.2.1]
    simp [max_duration_ms, c8doc, alookup]

/-- C10. The duration key is always materialized: for a non-empty batch the
merged state carries `testRunDurationMs` set to the resolved maximum, and when
no input document had the key at all it is present with value 0. -/
theorem C10_duration_materialized (first : Document) (rest : List Document) :
    alookup "testRunDurationMs" ((combine_all_docs (first :: rest)).state.getD []) =
      some (max_duration_ms (first :: rest)) ∧
    ((∀ d ∈ first :: rest, alookup "testRunDurationMs" (d.state.getD []) = none) →
      alookup "testRunDurationMs" ((combine_all_docs (first :: rest)).state.getD []) =
        some 0) := by
  have h1 : alookup "testRunDurationMs" ((combine_all_docs (first :: rest)).state.getD []) =
      some (max_duration_ms (first :: rest)) := by
    show alookup "testRunDurationMs" ((some (dictSet (first.state.getD []) "testRunDurationMs"
        (max_duration_ms (first :: rest)))).getD []) = _
    rw [Option.getD_some]
    exact alookup_dictSet_self _ _ _
  refine ⟨h1, fun habs => ?_⟩
  rw [h1, max_duration_ms_all_absent (first :: rest) habs]

/-- Witness for C10: a document whose state has no duration key still yields
a merged state with `testRunDurationMs = 0`. -/
theorem C10_witness :
    alookup "testRunDurationMs" ((combine_all_docs [noDurDoc]).state.getD []) = some 0 := by
  refine (C10_duration_materialized noDurDoc []).2 ?_
  intro d hd
  rcases List.mem_singleton.mp hd with rfl
  simp [noDurDoc, alookup]

end AggregateData
namespace AggregateData

/-- C4. Rate is purely derived and guarded: stray `rate` entries in input
documents never influence the merged output, and the merged entry for metric
`n` carries a `rate` field exactly when its first-seen type is `counter`, some
contributing document reported `count`, and the total time is positive — in
which case it is the summed count divided by the total time; with zero total
time the field is absent (never a division by zero). -/
theorem C4_rate_derived (docs : List Document) (n t c : String)
    (h : firstTC n docs = some (t, c)) :
    combine_all_docs (docs.map stripRateDoc) = combine_all_docs docs ∧
    ∀ out, alookup n ((combine_all_docs docs).metrics.getD []) = some out →
      alookup "rate" out.values =
        (if t = "counter" ∧ containsKeyMany "count" (contribs n docs) = true ∧
            0 < total_time_s docs
         then some (sumKeyMany "count" (contribs n docs) / total_time_s docs)
         else none) := by
  refine ⟨combine_stripRate docs, fun out hout => ?_⟩
  have h1 : alookup n ((combine_all_docs docs).metrics.getD []) =
      some (finalize_metric_aggregator
        (updateMany (create_metric_aggregator t c) (contribs n docs))
        (total_time_s docs)) := by
    rw [combine_metrics_getD, alookup_merged_metrics, h]
    simp only [Option.map_some']
  rw [h1] at hout
  rw [← Option.some.inj hout]
  by_cases hg : t = "gauge"
  · subst hg
    rw [finalize_gauge_pipeline]
    have hng : ¬("gauge" : String) = "counter" := by decide
    simp [hng]
  · rw [updateMany_spec_nongauge _ _ (by simpa using hg)]
    rw [finalize_spec_nongauge _ _ (by simpa using hg)]
    by_cases hcond : t = "counter" ∧ containsKeyMany "count" (contribs n docs) = true ∧
        0 < total_time_s docs
    · rcases hcond with ⟨hc1, hc2, hc3⟩
      simp [create_metric_aggregator, hc1, hc2, hc3]
    · rw [if_neg hcond]
      simp only [create_metric_aggregator, Bool.false_or]
      by_cases hb1 : t = "counter"
      · by_cases hb2 : containsKeyMany "count" (contribs n docs) = true
        · have hb3 : ¬0 < total_time_s docs := fun hlt => hcond ⟨hb1, hb2, hlt⟩
          simp [hb1, hb2, hb3]
        · simp [hb1, hb2]
      · simp [hb1]

end AggregateData
namespace AggregateData

/-- Witness for C4: a counter with `count=100`, a stray input `rate=999` and a
1-second run merges to `rate = 100` (derived from count/time, the stray 999
is ignored). -/
theorem C4_witness :
    ∃ out, alookup "m" ((combine_all_docs [strayRateDoc]).metrics.getD []) = some out ∧
      alookup "rate" out.values = some 100 := by
  have h1 : alookup "m" ((combine_all_docs [strayRateDoc]).metrics.getD []) =
      some (finalize_metric_aggregator
        (updateMany (create_metric_aggregator "counter" "default") (contribs "m" [strayRateDoc]))
        (total_time_s [strayRateDoc])) := by
    rw [combine_metrics_getD, alookup_merged_metrics]
    rfl
  refine ⟨_, h1, ?_⟩
  rw [(C4_rate_derived [strayRateDoc] "m" "counter" "default" (by rfl)).2 _ h1]
  have ht : total_time_s [strayRateDoc] = 1 := by
    simp [total_time_s, max_duration_ms, strayRateDoc, alookup]
  have hcm : containsKeyMany "count" (contribs "m" [strayRateDoc]) = true := by
    simp [contribs, contribsItems, metricItems, strayRateDoc, containsKeyMany, containsKey]
  have hsm : sumKeyMany "count" (contribs "m" [strayRateDoc]) = 100 := by
    simp [contribs, contribsItems, metricItems, strayRateDoc, sumKeyMany, sumKey]
  rw [if_pos ⟨rfl, hcm, by rw [ht]; norm_num⟩, hsm, ht]
  norm_num

end AggregateData
namespace AggregateData

/-- C6. Global extrema: for a non-gauge metric, whenever at least one document
reports `min`, the merged `min` is the true minimum of all reported `min`
values (it is one of them and bounds them all below); symmetrically the merged
`max` is the true maximum of all reported `max` values. -/
theorem C6_global_extrema (docs : List Document) (n t c : String)
    (h : firstTC n docs = some (t, c)) (hng : ¬t = "gauge") :
    ∀ out, alookup n ((combine_all_docs docs).metrics.getD []) = some out →
      (¬keyValsMany "min" (contribs n docs) = [] →
        ∃ m, alookup "min" out.values = some m ∧
          m ∈ keyValsMany "min" (contribs n docs) ∧
          ∀ x ∈ keyValsMany "min" (contribs n docs), m ≤ x) ∧
      (¬keyValsMany "max" (contribs n docs) = [] →
        ∃ m, alookup "max" out.values = some m ∧
          m ∈ keyValsMany "max" (contribs n docs) ∧
          ∀ x ∈ keyValsMany "max" (contribs n docs), x ≤ m) := by
  intro out hout
  have h1 : alookup n ((combine_all_docs docs).metrics.getD []) =
      some (finalize_metric_aggregator
        (updateMany (create_metric_aggregator t c) (contribs n docs))
        (total_time_s docs)) := by
    rw [combine_metrics_getD, alookup_merged_metrics, h]
    simp only [Option.map_some']
  rw [h1] at hout
  rw [← Option.some.inj hout]
  rw [updateMany_spec_nongauge _ _ (by simpa using hng)]
  rw [finalize_spec_nongauge _ _ (by simpa using hng)]
  constructor
  · intro hne
    rcases hkv : keyValsMany "min" (contribs n docs) with _ | ⟨v, vs⟩
    · exact absurd hkv hne
    have hcm : containsKeyMany "min" (contribs n docs) = true := by
      rcases Bool.eq_false_or_eq_true (containsKeyMany "min" (contribs n docs)) with h2 | h2
      · exact h2
      · exact absurd ((keyValsMany_eq_nil_iff "min" (contribs n docs)).mpr h2) hne
    refine ⟨vs.foldl min v, ?_, ?_, ?_⟩
    · simp [create_metric_aggregator, hcm, hkv, minFold_cons, minStep, minFold_some_eq]
    · exact foldl_min_mem vs v
    · intro x hx
      rcases List.mem_cons.mp hx with he | hm
      · subst he
        exact foldl_min_le_init vs x
      · exact foldl_min_le_mem vs v x hm
  · intro hne
    rcases hkv : keyValsMany "max" (contribs n docs) with _ | ⟨v, vs⟩
    · exact absurd hkv hne
    have hcm : containsKeyMany "max" (contribs n docs) = true := by
      rcases Bool.eq_false_or_eq_true (containsKeyMany "max" (contribs n docs)) with h2 | h2
      · exact h2
      · exact absurd ((keyValsMany_eq_nil_iff "max" (contribs n docs)).mpr h2) hne
    refine ⟨vs.foldl max v, ?_, ?_, ?_⟩
    · simp [create_metric_aggregator, hcm, hkv, maxFold_cons, maxStep, maxFold_some_eq]
    · exact foldl_max_mem vs v
    · intro x hx
      rcases List.mem_cons.mp hx with he | hm
      · subst he
        exact foldl_max_init_le vs x
      · exact foldl_max_mem_le vs v x hm

end AggregateData
namespace AggregateData

/-- Witness for C6: `req_dur` reports `min` 5 and 2 and `max` 20 and 25 across
the two scenario documents; the merged entry has `min = 2` and `max = 25`. -/
theorem C6_witness :
    ∃ out, alookup "req_dur"
        ((combine_all_docs [scenario_doc1, scenario_doc2]).metrics.getD []) = some out ∧
      alookup "min" out.values = some 2 ∧ alookup "max" out.values = some 25 := by
  have h1 : alookup "req_dur" ((combine_all_docs [scenario_doc1, scenario_doc2]).metrics.getD []) =
      some (finalize_metric_aggregator
        (updateMany (create_metric_aggregator "trend" "time")
          (contribs "req_dur" [scenario_doc1, scenario_doc2]))
        (total_time_s [scenario_doc1, scenario_doc2])) := by
    rw [combine_metrics_getD, alookup_merged_metrics]
    rfl
  have h := C6_global_extrema [scenario_doc1, scenario_doc2] "req_dur" "trend" "time"
    (by rfl) (by decide) _ h1
  have hkv : keyValsMany "min" (contribs "req_dur" [scenario_doc1, scenario_doc2]) = [5, 2] := by
    simp [contribs, contribsItems, metricItems, scenario_doc1, scenario_doc2, keyValsMany, keyVals]
  have hkx : keyValsMany "max" (contribs "req_dur" [scenario_doc1, scenario_doc2]) = [20, 25] := by
    simp [contribs, contribsItems, metricItems, scenario_doc1, scenario_doc2, keyValsMany, keyVals]
  obtain ⟨m1, hm1, hmem1, hle1⟩ := h.1 (by rw [hkv]; exact List.cons_ne_nil 5 [2])
  obtain ⟨m2, hm2, hmem2, hle2⟩ := h.2 (by rw [hkx]; exact List.cons_ne_nil 20 [25])
  have hm1v : m1 = 2 := by
    rw [hkv] at hmem1 hle1
    have hb := hle1 2 (by norm_num)
    rcases List.mem_cons.mp hmem1 with he | hm
    · exfalso
      rw [he] at hb
      norm_num at hb
    · simpa using hm
  have hm2v : m2 = 25 := by
    rw [hkx] at hmem2 hle2
    have hb := hle2 25 (by norm_num)
    rcases List.mem_cons.mp hmem2 with he | hm
    · exfalso
      rw [he] at hb
      norm_num at hb
    · simpa using hm
  exact ⟨_, h1, by rw [← hm1v]; exact hm1, by rw [← hm2v]; exact hm2⟩

end AggregateData
namespace AggregateData

/-- C1. The spec's worked scenario: merging `doc1` and `doc2` yields
`state.testRunDurationMs = 2000`, `req_dur` values exactly
`min=2, max=25, avg=20, p(95)=20` and `reqs` values exactly
`count=150, rate=75`. -/
theorem C1_worked_scenario :
    (combine_all_docs [scenario_doc1, scenario_doc2]).state =
      some [("testRunDurationMs", 2000)] ∧
    alookup "req_dur" ((combine_all_docs [scenario_doc1, scenario_doc2]).metrics.getD []) =
      some { type := "trend"
             contains := "time"
             values := [("min", 2), ("max", 25), ("avg", 20), ("p(95)", 20)] } ∧
    alookup "reqs" ((combine_all_docs [scenario_doc1, scenario_doc2]).metrics.getD []) =
      some { type := "counter"
             contains := "default"
             values := [("count", 150), ("rate", 75)] } := by
  have hmax : max_duration_ms [scenario_doc1, scenario_doc2] = 2000 := by
    simp [max_duration_ms, scenario_doc1, scenario_doc2, alookup]
    norm_num
  have htime : total_time_s [scenario_doc1, scenario_doc2] = 2 := by
    rw [total_time_s, hmax]
    norm_num
  refine ⟨?_, ?_, ?_⟩
  · have hstate : (combine_all_docs [scenario_doc1, scenario_doc2]).state =
        some (dictSet (scenario_doc1.state.getD []) "testRunDurationMs"
          (max_duration_ms [scenario_doc1, scenario_doc2])) := rfl
    rw [hstate, hmax]
    simp [scenario_doc1, dictSet, alookup]
  · have h1 : alookup "req_dur"
        ((combine_all_docs [scenario_doc1, scenario_doc2]).metrics.getD []) =
        some (finalize_metric_aggregator
          (updateMany (create_metric_aggregator "trend" "time")
            (contribs "req_dur" [scenario_doc1, scenario_doc2]))
          (total_time_s [scenario_doc1, scenario_doc2])) := by
      rw [combine_metrics_getD, alookup_merged_metrics]
      rfl
    have hagg : updateMany (create_metric_aggregator "trend" "time")
        (contribs "req_dur" [scenario_doc1, scenario_doc2]) =
        { create_metric_aggregator "trend" "time" with
          min_val := some 2
          has_min := true
          max_val := some 25
          has_max := true
          avg_sum := 40
          avg_count := 2
          p95_sum := 40
          p95_count := 2 } := by
      simp only [contribs, contribsItems, metricItems, scenario_doc1, scenario_doc2]
      simp [updateMany_cons, update_metric_aggregator, List.foldl_cons,
        update_one_field_avg, update_one_field_min, update_one_field_max, update_one_field_p95,
        create_metric_aggregator, minStep, maxStep]
      norm_num
    rw [h1, htime, hagg, finalize_spec_nongauge _ _ (by decide)]
    simp [create_metric_aggregator]
    norm_num
  · have h1 : alookup "reqs"
        ((combine_all_docs [scenario_doc1, scenario_doc2]).metrics.getD []) =
        some (finalize_metric_aggregator
          (updateMany (create_metric_aggregator "counter" "default")
            (contribs "reqs" [scenario_doc1, scenario_doc2]))
          (total_time_s [scenario_doc1, scenario_doc2])) := by
      rw [combine_metrics_getD, alookup_merged_metrics]
      rfl
    have hagg : updateMany (create_metric_aggregator "counter" "default")
        (contribs "reqs" [scenario_doc1, scenario_doc2]) =
        { create_metric_aggregator "counter" "default" with
          count_sum := 150
          has_count := true } := by
      simp only [contribs, contribsItems, metricItems, scenario_doc1, scenario_doc2]
      simp [updateMany_cons, update_metric_aggregator, List.foldl_cons,
        update_one_field_count, create_metric_aggregator]
      norm_num
    rw [h1, htime, hagg, finalize_spec_nongauge _ _ (by decide)]
    simp [create_metric_aggregator]
    norm_num

end AggregateData
namespace AggregateData

theorem alookup_mem {β : Type} (k : String) (l : List (String × β)) (v : β)
    (h : alookup k l = some v) : (k, v) ∈ l := by
  induction l with
  | nil => simp at h
  | cons p rest ih =>
    by_cases hp : p.1 = k
    · rw [alookup_cons, if_pos hp] at h
      have h2 := Option.some.inj h
      have h3 : (k, v) = p := by
        rw [← hp, ← h2]
      rw [h3]
      exact List.mem_cons_self p rest
    · rw [alookup_cons, if_neg hp] at h
      exact List.mem_cons_of_mem p (ih h)

theorem contribsItems_nil_of_absent (n : String) (items : List (String × MetricEntry))
    (h : ∀ q ∈ items, ¬q.1 = n) : contribsItems n items = [] := by
  induction items with
  | nil => rfl
  | cons p rest ih =>
    rw [contribsItems_cons, if_neg (h p (List.mem_cons_self p rest))]
    exact ih (fun q hq => h q (List.mem_cons_of_mem p hq))

theorem contribsItems_nodup (n : String) (items : List (String × MetricEntry))
    (hnd : items.Pairwise (fun p q => ¬p.1 = q.1)) (e : MetricEntry)
    (h : alookup n items = some e) : contribsItems n items = [e.values.getD []] := by
  induction items with
  | nil => simp at h
  | cons p rest ih =>
    rcases List.pairwise_cons.mp hnd with ⟨hp, hrest⟩
    by_cases hpn : p.1 = n
    · rw [alookup_cons, if_pos hpn] at h
      have h2 := Option.some.inj h
      rw [contribsItems_cons, if_pos hpn, h2]
      rw [contribsItems_nil_of_absent n rest
        (fun q hq => fun e2 : q.1 = n => hp q hq (hpn.trans e2.symm))]
    · rw [alookup_cons, if_neg hpn] at h
      rw [contribsItems_cons, if_neg hpn]
      exact ih hrest h

end AggregateData
namespace AggregateData

/-- Feeding exactly one well-formed `values` dict (unique, recognized,
non-`rate` keys) through create → update → finalize reproduces every key's
value exactly, and adds `rate = count / T` exactly for counters with a
reported count and positive total time. -/
theorem finalize_single_lookup (t c : String) (ht : ¬t = "gauge") (T : Rat)
    (vals : List (String × Rat))
    (hnd : vals.Pairwise (fun p q => ¬p.1 = q.1))
    (hkeys : ∀ q ∈ vals, q.1 ∈ recognizedKeys ∧ ¬q.1 = "rate") :
    (∀ k, ¬k = "rate" →
      alookup k (finalize_metric_aggregator
        (update_metric_aggregator (create_metric_aggregator t c) vals) T).values =
      alookup k vals) ∧
    alookup "rate" (finalize_metric_aggregator
        (update_metric_aggregator (create_metric_aggregator t c) vals) T).values =
      (if t = "counter" ∧ (alookup "count" vals).isSome = true ∧ 0 < T
       then some ((alookup "count" vals).getD 0 / T) else none) := by
  rw [update_spec_nongauge _ _ (by simpa using ht)]
  rw [finalize_spec_nongauge _ _ (by simpa using ht)]
  simp only [create_metric_aggregator, Bool.false_or, zero_add,
    sumKey_nodup _ _ hnd, countKey_nodup _ _ hnd, keyVals_nodup _ _ hnd,
    containsKey_eq_isSome]
  constructor
  · intro k hk
    by_cases h1 : k = "count"
    · subst h1
      rcases hv : alookup "count" vals with _ | v <;> simp [hv]
    by_cases h2 : k = "passes"
    · subst h2
      rcases hv : alookup "passes" vals with _ | v <;> simp [hv]
    by_cases h3 : k = "fails"
    · subst h3
      rcases hv : alookup "fails" vals with _ | v <;> simp [hv]
    by_cases h4 : k = "min"
    · subst h4
      rcases hv : alookup "min" vals with _ | v <;> simp [hv, minFold, minStep]
    by_cases h5 : k = "max"
    · subst h5
      rcases hv : alookup "max" vals with _ | v <;> simp [hv, maxFold, maxStep]
    by_cases h6 : k = "avg"
    · subst h6
      rcases hv : alookup "avg" vals with _ | v <;> simp [hv]
    by_cases h7 : k = "med"
    · subst h7
      rcases hv : alookup "med" vals with _ | v <;> simp [hv]
    by_cases h8 : k = "p(90)"
    · subst h8
      rcases hv : alookup "p(90)" vals with _ | v <;> simp [hv]
    by_cases h9 : k = "p(95)"
    · subst h9
      rcases hv : alookup "p(95)" vals with _ | v <;> simp [hv]
    by_cases h10 : k = "value"
    · subst h10
      rcases hv : alookup "value" vals with _ | v <;> simp [hv]
    have hvnone : alookup k vals = none := by
      refine alookup_none_of_all_ne k vals (fun q hq => fun e2 : q.1 = k => ?_)
      have hmem := (hkeys q hq).1
      rw [e2] at hmem
      simp only [recognizedKeys, List.mem_cons, List.mem_singleton] at hmem
      rcases hmem with e | e | e | e | e | e | e | e | e | e | e
      · exact h1 e
      · exact h2 e
      · exact h3 e
      · exact h4 e
      · exact h5 e
      · exact h6 e
      · exact h7 e
      · exact h8 e
      · exact h9 e
      · exact h10 e
      · rcases e with e | e
        · exact hk e
        · cases e
    have hs1 : ¬("count" : String) = k := fun e2 => h1 e2.symm
    have hs2 : ¬("passes" : String) = k := fun e2 => h2 e2.symm
    have hs3 : ¬("fails" : String) = k := fun e2 => h3 e2.symm
    have hs4 : ¬("min" : String) = k := fun e2 => h4 e2.symm
    have hs5 : ¬("max" : String) = k := fun e2 => h5 e2.symm
    have hs6 : ¬("avg" : String) = k := fun e2 => h6 e2.symm
    have hs7 : ¬("med" : String) = k := fun e2 => h7 e2.symm
    have hs8 : ¬("p(90)" : String) = k := fun e2 => h8 e2.symm
    have hs9 : ¬("p(95)" : String) = k := fun e2 => h9 e2.symm
    have hs10 : ¬("value" : String) = k := fun e2 => h10 e2.symm
    have hs11 : ¬("rate" : String) = k := fun e2 => hk e2.symm
    simp [hvnone, hs1, hs2, hs3, hs4, hs5, hs6, hs7, hs8, hs9, hs10, hs11]
  · by_cases hcond : t = "counter" ∧ (alookup "count" vals).isSome = true ∧ 0 < T
    · rcases hcond with ⟨hc1, hc2, hc3⟩
      rcases hv : alookup "count" vals with _ | v
      · rw [hv] at hc2
        simp at hc2
      · simp [hc1, hv, hc3]
    · rw [if_neg hcond]
      by_cases hb1 : t = "counter"
      · by_cases hb2 : (alookup "count" vals).isSome = true
        · have hb3 : ¬0 < T := fun hlt => hcond ⟨hb1, hb2, hlt⟩
          rcases hv : alookup "count" vals with _ | v
          · rw [hv] at hb2
            simp at hb2
          · simp [hb1, hv, hb3]
        · rcases hv : alookup "count" vals with _ | v
          · simp [hb1, hv]
          · rw [hv] at hb2
            simp at hb2
      · rcases hv : alookup "count" vals with _ | v <;> simp [hb1, hv]

end AggregateData
namespace AggregateData

/-- C2 (amended). Single-document identity for well-formed documents: if every
metric of `d` is non-gauge, every `values` key is recognized, not `rate`, and
unique within its dict, metric names are unique, and the reported duration is
nonnegative, then merging `[d]` keeps the (defaulted) duration, introduces no
new metric name, and reproduces every metric's values pointwise — with `rate`
derived from `d`'s own count and duration exactly for counters. -/
theorem C2_single_doc_identity (d : Document)
    (hnames : (d.metrics.getD []).Pairwise (fun p q => ¬p.1 = q.1))
    (hng : ∀ p ∈ d.metrics.getD [], ¬p.2.type.getD "" = "gauge")
    (hvk : ∀ p ∈ d.metrics.getD [], ∀ q ∈ p.2.values.getD [],
      q.1 ∈ recognizedKeys ∧ ¬q.1 = "rate")
    (hvnd : ∀ p ∈ d.metrics.getD [], (p.2.values.getD []).Pairwise (fun q r => ¬q.1 = r.1))
    (hdur : 0 ≤ (alookup "testRunDurationMs" (d.state.getD [])).getD 0) :
    alookup "testRunDurationMs" ((combine_all_docs [d]).state.getD []) =
      some ((alookup "testRunDurationMs" (d.state.getD [])).getD 0) ∧
    (∀ n, alookup n (d.metrics.getD []) = none →
      alookup n ((combine_all_docs [d]).metrics.getD []) = none) ∧
    ∀ n e, alookup n (d.metrics.getD []) = some e →
      ∃ out, alookup n ((combine_all_docs [d]).metrics.getD []) = some out ∧
        out.type = e.type.getD "" ∧ out.contains = e.contains.getD "" ∧
        (∀ k, ¬k = "rate" → alookup k out.values = alookup k (e.values.getD [])) ∧
        alookup "rate" out.values =
          (if e.type.getD "" = "counter" ∧ (alookup "count" (e.values.getD [])).isSome = true ∧
              0 < total_time_s [d]
           then some ((alookup "count" (e.values.getD [])).getD 0 / total_time_s [d])
           else none) := by
  have hitems : metricItems [d] = d.metrics.getD [] := by
    rw [metricItems_cons, metricItems_nil, List.append_nil]
  have hmd : max_duration_ms [d] = (alookup "testRunDurationMs" (d.state.getD [])).getD 0 := by
    rw [max_duration_ms, List.foldl_cons, List.foldl_nil]
    rcases lt_or_eq_of_le hdur with h2 | h2
    · rw [if_pos h2]
    · rw [if_neg (by rw [← h2]; exact lt_irrefl 0), ← h2]
  refine ⟨?_, ?_, ?_⟩
  · show alookup "testRunDurationMs" ((some (dictSet (d.state.getD []) "testRunDurationMs"
        (max_duration_ms [d]))).getD []) = _
    rw [Option.getD_some, alookup_dictSet_self, hmd]
  · intro n hn
    rw [combine_metrics_getD, alookup_merged_metrics, firstTC, firstTCItems, hitems, hn]
    rfl
  · intro n e he
    have hmem : (n, e) ∈ d.metrics.getD [] := alookup_mem n _ e he
    have hfirst : firstTC n [d] = some (e.type.getD "", e.contains.getD "") := by
      rw [firstTC, firstTCItems, hitems, he]
      rfl
    have hcon : contribs n [d] = [e.values.getD []] := by
      rw [contribs, hitems]
      exact contribsItems_nodup n _ hnames e he
    have h1 : alookup n ((combine_all_docs [d]).metrics.getD []) =
        some (finalize_metric_aggregator
          (update_metric_aggregator
            (create_metric_aggregator (e.type.getD "") (e.contains.getD ""))
            (e.values.getD []))
          (total_time_s [d])) := by
      rw [combine_metrics_getD, alookup_merged_metrics, hfirst]
      simp only [Option.map_some']
      rw [hcon, updateMany_cons, updateMany_nil]
    have hsingle := finalize_single_lookup (e.type.getD "") (e.contains.getD "")
      (hng (n, e) hmem) (total_time_s [d]) (e.values.getD [])
      (hvnd (n, e) hmem) (hvk (n, e) hmem)
    exact ⟨_, h1, by simp, by simp, hsingle.1, hsingle.2⟩

/-- Counterexample to C2 as stated: merging a one-document batch does not
always reproduce the document's metrics values. A gauge metric reporting only
`min=5` merges to `min=5, max=0, value=0`, and a counter carrying a stray
input `rate=999` merges to a recomputed `rate=100`. -/
theorem C2_counterexample :
    alookup "g" ((combine_all_docs [gaugePartialDoc]).metrics.getD []) =
      some { type := "gauge"
             contains := "data"
             values := [("min", 5), ("max", 0), ("value", 0)] } ∧
    ¬[("min", (5 : Rat)), ("max", 0), ("value", 0)] = [("min", (5 : Rat))] ∧
    (∃ out, alookup "m" ((combine_all_docs [strayRateDoc]).metrics.getD []) = some out ∧
      alookup "rate" out.values = some 100) ∧
    ¬some (100 : Rat) = some 999 := by
  refine ⟨?_, by simp, ?_, by norm_num⟩
  · have h1 : alookup "g" ((combine_all_docs [gaugePartialDoc]).metrics.getD []) =
        some (finalize_metric_aggregator
          (updateMany (create_metric_aggregator "gauge" "data")
            (contribs "g" [gaugePartialDoc]))
          (total_time_s [gaugePartialDoc])) := by
      rw [combine_metrics_getD, alookup_merged_metrics]
      rfl
    rw [h1, finalize_gauge_pipeline]
    simp [contribs, contribsItems, metricItems, gaugePartialDoc, gaugeSum, alookup]
  · have h1 : alookup "m" ((combine_all_docs [strayRateDoc]).metrics.getD []) =
        some (finalize_metric_aggregator
          (updateMany (create_metric_aggregator "counter" "default")
            (contribs "m" [strayRateDoc]))
          (total_time_s [strayRateDoc])) := by
      rw [combine_metrics_getD, alookup_merged_metrics]
      rfl
    refine ⟨_, h1, ?_⟩
    have hagg : updateMany (create_metric_aggregator "counter" "default")
        (contribs "m" [strayRateDoc]) =
        { create_metric_aggregator "counter" "default" with
          count_sum := 100
          has_count := true } := by
      simp only [contribs, contribsItems, metricItems, strayRateDoc]
      simp [updateMany_cons, update_metric_aggregator, List.foldl_cons,
        update_one_field_count, update_one_field_rate, create_metric_aggregator]
    have ht : total_time_s [strayRateDoc] = 1 := by
      simp [total_time_s, max_duration_ms, strayRateDoc, alookup]
    rw [hagg, ht, finalize_spec_nongauge _ _ (by decide)]
    simp [create_metric_aggregator]

/-- Witness for C2 (amended) at a concrete well-formed document: a counter
with `count=100`, `avg=7` and a 1-second run merges to the same `count` and
`avg` and a derived `rate=100`, duration unchanged. -/
theorem C2_witness :
    alookup "testRunDurationMs" ((combine_all_docs [c2doc]).state.getD []) = some 1000 ∧
    ∃ out, alookup "m" ((combine_all_docs [c2doc]).metrics.getD []) = some out ∧
      alookup "count" out.values = some 100 ∧
      alookup "avg" out.values = some 7 ∧
      alookup "rate" out.values = some 100 := by
  have h := C2_single_doc_identity c2doc
    (by simp [c2doc])
    (by intro p hp; simp [c2doc] at hp; simp [hp])
    (by
      intro p hp q hq
      simp [c2doc] at hp
      rw [hp] at hq
      simp at hq
      rcases hq with hq | hq <;> simp [hq, recognizedKeys])
    (by intro p hp; simp [c2doc] at hp; simp [hp])
    (by simp [c2doc, alookup])
  obtain ⟨hdur, _, hpres⟩ := h
  obtain ⟨out, hout, hty, hco, hvals, hrate⟩ := hpres "m"
    { type := some "counter", contains := some "default"
      values := some [("count", 100), ("avg", 7)] } (by simp [c2doc, alookup])
  refine ⟨?_, out, hout, ?_, ?_, ?_⟩
  · rw [hdur]
    simp [c2doc, alookup]
  · rw [hvals "count" (by decide)]
    simp [alookup]
  · rw [hvals "avg" (by decide)]
    simp [alookup]
  · rw [hrate]
    have ht : total_time_s [c2doc] = 1 := by
      simp [total_time_s, max_duration_ms, c2doc, alookup]
    rw [ht]
    simp [alookup]

end AggregateData
